/-
Verification of ircd/list.c (ircu2): the object pool for Client /
Connection / SLink records, the global doubly-linked client list, and the
DLink helpers.

Modelling conventions:
* The C heap is a pair of functions `Nat → Client` and `Nat → Connection`
  (ids play the role of addresses; `Option Nat` is a nullable pointer,
  `none` = NULL).  `MyMalloc` hands out the next fresh id; the contents of
  a freshly malloc'd cell are whatever the heap function already held
  there (uninitialized memory).
* The three free lists are chained through the records' `next` fields in
  the C code.  We keep the chain written into the heap exactly as the code
  does, and additionally carry the chain spelled out as a `List Nat`
  (head = list head); `alloc` pops the head, `dealloc` pushes.
* External collaborators called by list.c (close, MsgQClear,
  client_drop_sendq, DBufClear, release_listener, socket_del, timer_del,
  destroy_auth_request, add_history, off_history, free_user) are modelled
  as emitted events plus the field updates list.c itself performs.
* `assert`s are modelled separately as decidable `..._pre` predicates (the
  functions themselves are the NDEBUG semantics).
-/
import Mathlib

/-- Pointwise update of a heap at one address. -/
def upd {α : Type} (f : Nat → α) (i : Nat) (v : α) : Nat → α :=
  fun j => if j = i then v else f j

/-- Modelled from the spec: event-loop timer state (ircd_events.h is not in
src/); `t_active` / `t_onqueue` are the two flags list.c tests. -/
structure Timer where
  t_active : Bool
  t_onqueue : Bool
deriving Repr, DecidableEq

/-- timer_init: a fresh, inactive timer. -/
def timer_init : Timer := ⟨false, false⟩

/-- struct SLink (the fields list.c touches: the free-list `next` chain and
the value union holding a client pointer). -/
structure SLink where
  next : Option Nat
  value : Option Nat
deriving Repr, DecidableEq

/-- struct Server fields freed by remove_client_from_list. -/
structure ServerRec where
  user : Bool
  client_list : Bool
  last_error_msg : String
deriving Repr, DecidableEq

/-- struct Client: the fields of the client record that list.c reads or
writes.  Pointer fields are ids into the respective heaps.  Fields that
live in struct Connection in the C code (reached through the cli_* macros
of client.h) are on `Connection` below. -/
structure Client where
  cli_magic : Nat
  cli_status : Nat
  cli_connect : Option Nat
  cli_next : Option Nat
  cli_prev : Option Nat
  cli_hnext : Option Nat
  cli_user : Bool
  cli_serv : Option ServerRec
  cli_name : String
  cli_username : String
  cli_lastnick : Int
deriving Repr, DecidableEq

/-- A client record with all bytes zero (result of memset 0). -/
def Client.zeroed : Client :=
  ⟨0, 0, none, none, none, none, false, none, "", "", 0⟩

/-- struct Connection: the fields list.c reads or writes, including the
ones the cli_* accessor macros of client.h forward to (con_client is the
back-pointer the code calls cli_from; con_freeflag, con_fd, con_proc,
con_auth back the cli_freeflag / cli_fd / cli_proc / cli_auth macros). -/
structure Connection where
  con_magic : Nat
  con_client : Option Nat
  con_next : Option Nat
  con_proc : Timer
  con_fd : Int
  con_freeflag : Nat
  con_dns_reply : Bool
  con_listener : Bool
  con_auth : Bool
  con_sendq : Nat
  con_recvq : Nat
  con_nextnick : Int
  con_nexttarget : Int
  con_handler : Nat
  con_unreg : Nat
  con_since : Int
  con_lasttime : Int
  con_firsttime : Int
deriving Repr, DecidableEq

/-- A connection record with all bytes zero (result of memset 0). -/
def Connection.zeroed : Connection :=
  ⟨0, none, none, ⟨false, false⟩, 0, 0, false, false, false, 0, 0, 0, 0, 0, 0, 0, 0, 0⟩

/-- Modelled from the spec: CLIENT_MAGIC (client.h is not in src/); a fixed
nonzero magic word. -/
def CLIENT_MAGIC : Nat := 0x4ca08286

/-- Modelled from the spec: CONNECTION_MAGIC (client.h is not in src/); a
fixed nonzero magic word. -/
def CONNECTION_MAGIC : Nat := 0x7b69792f

/-- Modelled from the spec: MAXCONNECTIONS, the compile-time connection
limit (config.h is not in src/); any positive value. -/
def MAXCONNECTIONS : Nat := 4096

/-- Modelled from the spec: FREEFLAG_SOCKET bit (client.h not in src/). -/
def FREEFLAG_SOCKET : Nat := 1

/-- Modelled from the spec: FREEFLAG_TIMER bit (client.h not in src/). -/
def FREEFLAG_TIMER : Nat := 2

/-- Modelled from the spec: the STAT_USER status tag (client.h not in
src/); statuses are distinct bit flags, IsUser tests this one. -/
def STAT_USER : Nat := 16

/-- Modelled from the spec: policy constants of make_client (feature
values, not in src/); exact values are configuration. -/
def NICK_DELAY : Int := 30

/-- Modelled from the spec: target-ratelimit policy constant. -/
def TARGET_DELAY : Int := 120

/-- Modelled from the spec: target-ratelimit policy constant. -/
def STARTTARGETS : Int := 10

/-- Modelled from the spec: initial unregistered-requirement mask
(CLIREG_INIT, s_user.h not in src/). -/
def CLIREG_INIT : Nat := 3

/-- Modelled from the spec: the message handler id for unregistered
connections. -/
def UNREGISTERED_HANDLER : Nat := 0

/-- Calls list.c makes into external collaborators, recorded as events. -/
inductive Event
  | closeFd (fd : Int)
  | msgqClear (con : Nat)
  | dropSendq (con : Nat)
  | dbufClear (con : Nat)
  | releaseListener (con : Nat)
  | socketDel (con : Nat)
  | timerDel (con : Nat)
  | destroyAuth (cli : Nat)
  | addHistory (cli : Nat)
  | offHistory (cli : Nat)
  | freeUser (cli : Nat)
deriving Repr, DecidableEq

/-- The full state list.c operates on: the two record heaps, the SLink
heap, the three free lists (with their alloc counters), the in-use
instrumentation lists (clients.inuse / connections.inuse of DEBUGMODE,
kept as the lists of ids handed out and not yet released), the fresh
malloc counter, GlobalClientList, the whowas history (modelled from the
spec: whowas.c is not in src/; add_history appends the departing client),
the emitted events, and the clock (CurrentTime / TStime). -/
structure ListState where
  clients : Nat → Client
  conns : Nat → Connection
  slinks : Nat → SLink
  clientFreeList : List Nat
  connFreeList : List Nat
  slinkFreeList : List Nat
  clientAllocCount : Nat
  connectionAllocCount : Nat
  slinkAllocCount : Nat
  clientInUse : List Nat
  connInUse : List Nat
  freshPtr : Nat
  globalClientList : Option Nat
  whowas : List Nat
  events : List Event
  currentTime : Int
  tsTime : Int

/-- Update one client record. -/
def setClient (s : ListState) (i : Nat) (g : Client → Client) : ListState :=
  { s with clients := upd s.clients i (g (s.clients i)) }

/-- Update one connection record. -/
def setConn (s : ListState) (i : Nat) (g : Connection → Connection) : ListState :=
  { s with conns := upd s.conns i (g (s.conns i)) }

/-- Update one SLink record. -/
def setSlink (s : ListState) (i : Nat) (g : SLink → SLink) : ListState :=
  { s with slinks := upd s.slinks i (g (s.slinks i)) }

/-- cli_from(cli) = con_client(cli_connect(cli)): the client a connection
is attached to.  A client is local exactly when this is itself. -/
def cli_from (s : ListState) (c : Nat) : Option Nat :=
  match (s.clients c).cli_connect with
  | none => none
  | some k => (s.conns k).con_client

/-- IsUser(x): the status tag is STAT_USER. -/
def IsUser (s : ListState) (c : Nat) : Bool :=
  (s.clients c).cli_status == STAT_USER

/-- cli_verify(cli): the magic word check. -/
def cli_verify (s : ListState) (c : Nat) : Bool :=
  (s.clients c).cli_magic == CLIENT_MAGIC

/-- con_verify(con): the magic word check. -/
def con_verify (s : ListState) (k : Nat) : Bool :=
  (s.conns k).con_magic == CONNECTION_MAGIC

/-- One iteration body of init_list's loop: malloc a Client and push it on
clientFreeList, malloc a Connection and push it on connFreeList (only the
free-chain `next` field of a fresh cell is written). -/
def init_list_step (s : ListState) : ListState :=
  let cptr := s.freshPtr
  let s := { s with freshPtr := s.freshPtr + 1 }
  let s := setClient s cptr (fun c => { c with cli_next := s.clientFreeList.head? })
  let s := { s with clientFreeList := cptr :: s.clientFreeList,
                    clientAllocCount := s.clientAllocCount + 1 }
  let con := s.freshPtr
  let s := { s with freshPtr := s.freshPtr + 1 }
  let s := setConn s con (fun c => { c with con_next := s.connFreeList.head? })
  { s with connFreeList := con :: s.connFreeList,
           connectionAllocCount := s.connectionAllocCount + 1 }

/-- init_list's loop, n iterations. -/
def init_list_loop : Nat → ListState → ListState
  | 0, s => s
  | n + 1, s => init_list_loop n (init_list_step s)

/-- init_list(): pre-allocate MAXCONNECTIONS clients and connections. -/
def init_list (s : ListState) : ListState :=
  init_list_loop MAXCONNECTIONS s

/-- alloc_client(): pop the free-list head if there is one, else malloc a
fresh cell; count it in use; memset the cell to zero. -/
def alloc_client (s : ListState) : Nat × ListState :=
  match s.clientFreeList with
  | [] =>
      let cptr := s.freshPtr
      let s := { s with freshPtr := s.freshPtr + 1,
                        clientAllocCount := s.clientAllocCount + 1 }
      let s := { s with clientInUse := cptr :: s.clientInUse }
      let s := setClient s cptr (fun _ => Client.zeroed)
      (cptr, s)
  | cptr :: rest =>
      let s := { s with clientFreeList := rest }
      let s := { s with clientInUse := cptr :: s.clientInUse }
      let s := setClient s cptr (fun _ => Client.zeroed)
      (cptr, s)

/-- The asserts of dealloc_client: cli_verify and no owned connection. -/
def dealloc_client_pre (s : ListState) (cptr : Nat) : Bool :=
  cli_verify s cptr && (s.clients cptr).cli_connect == none

/-- dealloc_client(cptr): uncount it, link it in front of clientFreeList
through its cli_next field, clear the magic word.  The rest of the record
is left as is. -/
def dealloc_client (s : ListState) (cptr : Nat) : ListState :=
  let s := { s with clientInUse := s.clientInUse.erase cptr }
  let s := setClient s cptr (fun c => { c with cli_next := s.clientFreeList.head? })
  let s := { s with clientFreeList := cptr :: s.clientFreeList }
  setClient s cptr (fun c => { c with cli_magic := 0 })

/-- alloc_connection(): pop the free-list head if there is one, else
malloc; count in use; memset to zero; timer_init the processing timer. -/
def alloc_connection (s : ListState) : Nat × ListState :=
  match s.connFreeList with
  | [] =>
      let con := s.freshPtr
      let s := { s with freshPtr := s.freshPtr + 1,
                        connectionAllocCount := s.connectionAllocCount + 1 }
      let s := { s with connInUse := con :: s.connInUse }
      let s := setConn s con (fun _ => Connection.zeroed)
      let s := setConn s con (fun c => { c with con_proc := timer_init })
      (con, s)
  | con :: rest =>
      let s := { s with connFreeList := rest }
      let s := { s with connInUse := con :: s.connInUse }
      let s := setConn s con (fun _ => Connection.zeroed)
      let s := setConn s con (fun c => { c with con_proc := timer_init })
      (con, s)

/-- The asserts of dealloc_connection: con_verify and the processing timer
neither active nor on the timer queue. -/
def dealloc_connection_pre (s : ListState) (con : Nat) : Bool :=
  con_verify s con && !(s.conns con).con_proc.t_active
    && !(s.conns con).con_proc.t_onqueue

/-- dealloc_connection(con): free the DNS reply, close the fd if open,
clear both queues, release the listener, then link the record in front of
connFreeList and clear the magic word. -/
def dealloc_connection (s : ListState) (con : Nat) : ListState :=
  let s := if (s.conns con).con_dns_reply then
             setConn s con (fun c => { c with con_dns_reply := false })
           else s
  let s := if (-1 : Int) < (s.conns con).con_fd then
             { s with events := s.events ++ [Event.closeFd (s.conns con).con_fd] }
           else s
  let s := { s with events := s.events ++ [Event.msgqClear con] }
  let s := setConn s con (fun c => { c with con_sendq := 0 })
  let s := { s with events := s.events ++ [Event.dropSendq con] }
  let s := { s with events := s.events ++ [Event.dbufClear con] }
  let s := setConn s con (fun c => { c with con_recvq := 0 })
  let s := if (s.conns con).con_listener then
             { s with events := s.events ++ [Event.releaseListener con] }
           else s
  let s := { s with connInUse := s.connInUse.erase con }
  let s := setConn s con (fun c => { c with con_next := s.connFreeList.head? })
  let s := { s with connFreeList := con :: s.connFreeList }
  setConn s con (fun c => { c with con_magic := 0 })

/-- make_client(from, status): allocate a client; if from == NULL also
allocate and initialize a Connection owned by the new client, else share
from's connection; then set magic, status, self hash link and username. -/
def make_client (s : ListState) (frm : Option Nat) (status : Nat) : Nat × ListState :=
  let (cptr, s) := alloc_client s
  match frm with
  | none =>
      let (con, s) := alloc_connection s
      let s := setConn s con (fun c => { c with
        con_magic := CONNECTION_MAGIC,
        con_fd := -1,
        con_freeflag := 0,
        con_nextnick := s.currentTime - NICK_DELAY,
        con_nexttarget := s.currentTime - TARGET_DELAY * (STARTTARGETS - 1),
        con_handler := UNREGISTERED_HANDLER,
        con_client := some cptr })
      let s := setClient s cptr (fun c => { c with cli_connect := some con })
      let s := setConn s con (fun c => { c with
        con_since := s.currentTime, con_lasttime := s.currentTime,
        con_firsttime := s.currentTime })
      let s := setClient s cptr (fun c => { c with cli_lastnick := s.tsTime })
      let s := setConn s con (fun c => { c with con_unreg := CLIREG_INIT })
      let s := setClient s cptr (fun c => { c with
        cli_magic := CLIENT_MAGIC, cli_status := status,
        cli_hnext := some cptr, cli_username := "unknown" })
      (cptr, s)
  | some f =>
      let s := setClient s cptr (fun c =>
        { c with cli_connect := (s.clients f).cli_connect })
      let s := setClient s cptr (fun c => { c with
        cli_magic := CLIENT_MAGIC, cli_status := status,
        cli_hnext := some cptr, cli_username := "unknown" })
      (cptr, s)

/-- The asserts of free_connection (including the ones of the
dealloc_connection it calls): con_verify, no attached client, timer
neither active nor on queue. -/
def free_connection_pre (s : ListState) (con : Nat) : Bool :=
  con_verify s con && (s.conns con).con_client == none
    && dealloc_connection_pre s con

/-- free_connection(con): NULL is a no-op, otherwise dealloc. -/
def free_connection (s : ListState) (con : Option Nat) : ListState :=
  match con with
  | none => s
  | some k => dealloc_connection s k

/-- free_client(cptr): NULL is a no-op.  Otherwise destroy any pending
auth request; if the client is local (cli_from is itself) detach the
connection back-pointer and either dealloc the connection now (freeflag
clear and timer inactive) or queue socket / timer deletions per the
freeflag bits; finally clear cli_connect and dealloc the client. -/
def free_client (s : ListState) (cptr : Option Nat) : ListState :=
  match cptr with
  | none => s
  | some c =>
    let s := match (s.clients c).cli_connect with
             | some k =>
               if (s.conns k).con_auth then
                 { s with events := s.events ++ [Event.destroyAuth c] }
               else s
             | none => s
    let s := match (s.clients c).cli_connect with
      | some k =>
        if (s.conns k).con_client = some c then
          let s := setConn s k (fun co => { co with con_client := none })
          if (s.conns k).con_freeflag = 0 && !(s.conns k).con_proc.t_active then
            dealloc_connection s k
          else
            let s := if (-1 : Int) < (s.conns k).con_fd
                        && (s.conns k).con_freeflag &&& FREEFLAG_SOCKET != 0 then
                       { s with events := s.events ++ [Event.socketDel k] }
                     else s
            if (s.conns k).con_freeflag &&& FREEFLAG_TIMER != 0 then
              { s with events := s.events ++ [Event.timerDel k] }
            else s
        else s
      | none => s
    let s := setClient s c (fun cl => { cl with cli_connect := none })
    dealloc_client s c

/-- Lines 369-378 of remove_client_from_list: delink cptr from
GlobalClientList (only when its cli_next is non-NULL), then clear its own
next and prev. -/
def delink_global (s : ListState) (cptr : Nat) : ListState :=
  let s :=
    match (s.clients cptr).cli_next with
    | none => s
    | some nx =>
      let s :=
        match (s.clients cptr).cli_prev with
        | some pv => setClient s pv (fun c => { c with cli_next := (s.clients cptr).cli_next })
        | none =>
          let s := { s with globalClientList := (s.clients cptr).cli_next }
          setClient s nx (fun c => { c with cli_prev := none })
      setClient s nx (fun c => { c with cli_prev := (s.clients cptr).cli_prev })
  setClient s cptr (fun c => { c with cli_next := none, cli_prev := none })

/-- Lines 381-384 of remove_client_from_list: if cptr is a user with a
user record, move it to the whowas history. -/
def remove_hist_step (s : ListState) (cptr : Nat) : ListState :=
  if IsUser s cptr && (s.clients cptr).cli_user then
    { s with whowas := s.whowas ++ [cptr],
             events := s.events ++ [Event.addHistory cptr, Event.offHistory cptr] }
  else s

/-- Lines 385-388: free and clear the user sub-record. -/
def remove_user_step (s : ListState) (cptr : Nat) : ListState :=
  if (s.clients cptr).cli_user then
    let s := { s with events := s.events ++ [Event.freeUser cptr] }
    setClient s cptr (fun c => { c with cli_user := false })
  else s

/-- Lines 390-402: free the server sub-record and its parts. -/
def remove_serv_step (s : ListState) (cptr : Nat) : ListState :=
  match (s.clients cptr).cli_serv with
  | some sv =>
    let s := if sv.user then { s with events := s.events ++ [Event.freeUser cptr] }
             else s
    setClient s cptr (fun c => { c with cli_serv := none })
  | none => s

/-- remove_client_from_list(cptr): delink from GlobalClientList; if a user
with a user record, record it in the whowas history; free the user and
server sub-records; then free_client. -/
def remove_client_from_list (s : ListState) (cptr : Nat) : ListState :=
  free_client
    (remove_serv_step
      (remove_user_step
        (remove_hist_step (delink_global s cptr) cptr) cptr) cptr)
    (some cptr)

/-- add_client_to_list(cptr): insert at the head of GlobalClientList,
fixing the old head's prev back-pointer. -/
def add_client_to_list (s : ListState) (cptr : Nat) : ListState :=
  let s := setClient s cptr (fun c => { c with cli_prev := none })
  let s := setClient s cptr (fun c => { c with cli_next := s.globalClientList })
  let s := { s with globalClientList := some cptr }
  match (s.clients cptr).cli_next with
  | some nx => setClient s nx (fun c => { c with cli_prev := some cptr })
  | none => s

/-- make_link(): pop the SLink free list head, or malloc a fresh cell; the
returned cell is not initialized. -/
def make_link (s : ListState) : Nat × ListState :=
  match s.slinkFreeList with
  | lp :: rest => (lp, { s with slinkFreeList := rest })
  | [] =>
      let lp := s.freshPtr
      (lp, { s with freshPtr := s.freshPtr + 1,
                    slinkAllocCount := s.slinkAllocCount + 1 })

/-- free_link(lp): prepend to the SLink free list (NULL is a no-op). -/
def free_link (s : ListState) (lp : Option Nat) : ListState :=
  match lp with
  | some l =>
    let s := setSlink s l (fun k => { k with next := s.slinkFreeList.head? })
    { s with slinkFreeList := l :: s.slinkFreeList }
  | none => s

/-- struct DLink: the doubly linked helper node (value union holds a
client pointer). -/
structure DLink where
  dl_value : Nat
  dl_prev : Option Nat
  dl_next : Option Nat
deriving Repr, DecidableEq

/-- Heap of DLink nodes: add_dlink mallocs fresh nodes, remove_dlink frees
them (`valid` tracks which ids are live). -/
structure DState where
  nodes : Nat → DLink
  valid : Nat → Bool
  freshD : Nat

/-- Update one DLink node. -/
def setNode (s : DState) (i : Nat) (g : DLink → DLink) : DState :=
  { s with nodes := upd s.nodes i (g (s.nodes i)) }

/-- add_dlink(lpp, cp): malloc a node, store cp, prev := NULL,
next := *lpp; fix the old head's prev; *lpp := the node.  `root` plays
the role of *lpp; the new root is returned alongside the node id. -/
def add_dlink (s : DState) (root : Option Nat) (cp : Nat) : Nat × Option Nat × DState :=
  let lp := s.freshD
  let s := { s with freshD := s.freshD + 1, valid := upd s.valid lp true }
  let s := { s with nodes := upd s.nodes lp ⟨cp, none, root⟩ }
  let s := match root with
    | some h => setNode s h (fun n => { n with dl_prev := some lp })
    | none => s
  (lp, some lp, s)

/-- remove_dlink(lpp, lp): unlink the node (updating *lpp only when the
node had no predecessor) and free it. -/
def remove_dlink (s : DState) (root : Option Nat) (lp : Nat) : Option Nat × DState :=
  match (s.nodes lp).dl_prev with
  | some p =>
    let s := setNode s p (fun n => { n with dl_next := (s.nodes lp).dl_next })
    let s := match (s.nodes lp).dl_next with
      | some q => setNode s q (fun n => { n with dl_prev := (s.nodes lp).dl_prev })
      | none => s
    (root, { s with valid := upd s.valid lp false })
  | none =>
    let root := (s.nodes lp).dl_next
    let s := match (s.nodes lp).dl_next with
      | some q => setNode s q (fun n => { n with dl_prev := none })
      | none => s
    (root, { s with valid := upd s.valid lp false })

/-- The well-formedness of (a tail of) the global doubly-linked client
list, as the spec states it: `listSeg h prev ptr L` holds when following
cli_next from `ptr` visits exactly the nodes of L and ends at NULL, and
every visited node's cli_prev points at the node it was reached from
(`prev` for the first).  With `prev = none` and `ptr` the list head this
is exactly "the head's prev is NULL and every node's successor points
back at it". -/
def listSeg (h : Nat → Client) : Option Nat → Option Nat → List Nat → Bool
  | _, ptr, [] => ptr == none
  | prev, ptr, c :: rest =>
    ptr == some c && (h c).cli_prev == prev && listSeg h (some c) (h c).cli_next rest

/-- Reading an updated heap at the updated address. -/
@[simp] theorem upd_at {α : Type} (f : Nat → α) (i : Nat) (v : α) : upd f i v i = v := by
  simp [upd]

/-- Reading an updated heap elsewhere. -/
@[simp] theorem upd_ne {α : Type} (f : Nat → α) (i : Nat) (v : α) (j : Nat)
    (h : j ≠ i) : upd f i v j = f j := by
  simp [upd, h]

@[simp] theorem setClient_clients_at (s : ListState) (i : Nat) (g : Client → Client) :
    (setClient s i g).clients i = g (s.clients i) := by
  simp [setClient]

@[simp] theorem setClient_clients_ne (s : ListState) (i : Nat) (g : Client → Client)
    (j : Nat) (h : j ≠ i) : (setClient s i g).clients j = s.clients j := by
  simp [setClient, h]

@[simp] theorem setClient_conns (s : ListState) (i : Nat) (g : Client → Client) :
    (setClient s i g).conns = s.conns := rfl

@[simp] theorem setClient_slinks (s : ListState) (i : Nat) (g : Client → Client) :
    (setClient s i g).slinks = s.slinks := rfl

@[simp] theorem setClient_clientFreeList (s : ListState) (i : Nat) (g : Client → Client) :
    (setClient s i g).clientFreeList = s.clientFreeList := rfl

@[simp] theorem setClient_connFreeList (s : ListState) (i : Nat) (g : Client → Client) :
    (setClient s i g).connFreeList = s.connFreeList := rfl

@[simp] theorem setClient_slinkFreeList (s : ListState) (i : Nat) (g : Client → Client) :
    (setClient s i g).slinkFreeList = s.slinkFreeList := rfl

@[simp] theorem setClient_clientInUse (s : ListState) (i : Nat) (g : Client → Client) :
    (setClient s i g).clientInUse = s.clientInUse := rfl

@[simp] theorem setClient_connInUse (s : ListState) (i : Nat) (g : Client → Client) :
    (setClient s i g).connInUse = s.connInUse := rfl

@[simp] theorem setClient_freshPtr (s : ListState) (i : Nat) (g : Client → Client) :
    (setClient s i g).freshPtr = s.freshPtr := rfl

@[simp] theorem setClient_globalClientList (s : ListState) (i : Nat) (g : Client → Client) :
    (setClient s i g).globalClientList = s.globalClientList := rfl

@[simp] theorem setClient_whowas (s : ListState) (i : Nat) (g : Client → Client) :
    (setClient s i g).whowas = s.whowas := rfl

@[simp] theorem setClient_events (s : ListState) (i : Nat) (g : Client → Client) :
    (setClient s i g).events = s.events := rfl

@[simp] theorem setConn_conns_at (s : ListState) (i : Nat) (g : Connection → Connection) :
    (setConn s i g).conns i = g (s.conns i) := by
  simp [setConn]

@[simp] theorem setConn_conns_ne (s : ListState) (i : Nat) (g : Connection → Connection)
    (j : Nat) (h : j ≠ i) : (setConn s i g).conns j = s.conns j := by
  simp [setConn, h]

@[simp] theorem setConn_clients (s : ListState) (i : Nat) (g : Connection → Connection) :
    (setConn s i g).clients = s.clients := rfl

@[simp] theorem setConn_slinks (s : ListState) (i : Nat) (g : Connection → Connection) :
    (setConn s i g).slinks = s.slinks := rfl

@[simp] theorem setConn_clientFreeList (s : ListState) (i : Nat) (g : Connection → Connection) :
    (setConn s i g).clientFreeList = s.clientFreeList := rfl

@[simp] theorem setConn_connFreeList (s : ListState) (i : Nat) (g : Connection → Connection) :
    (setConn s i g).connFreeList = s.connFreeList := rfl

@[simp] theorem setConn_slinkFreeList (s : ListState) (i : Nat) (g : Connection → Connection) :
    (setConn s i g).slinkFreeList = s.slinkFreeList := rfl

@[simp] theorem setConn_clientInUse (s : ListState) (i : Nat) (g : Connection → Connection) :
    (setConn s i g).clientInUse = s.clientInUse := rfl

@[simp] theorem setConn_connInUse (s : ListState) (i : Nat) (g : Connection → Connection) :
    (setConn s i g).connInUse = s.connInUse := rfl

@[simp] theorem setConn_freshPtr (s : ListState) (i : Nat) (g : Connection → Connection) :
    (setConn s i g).freshPtr = s.freshPtr := rfl

@[simp] theorem setConn_globalClientList (s : ListState) (i : Nat) (g : Connection → Connection) :
    (setConn s i g).globalClientList = s.globalClientList := rfl

@[simp] theorem setConn_whowas (s : ListState) (i : Nat) (g : Connection → Connection) :
    (setConn s i g).whowas = s.whowas := rfl

@[simp] theorem setConn_events (s : ListState) (i : Nat) (g : Connection → Connection) :
    (setConn s i g).events = s.events := rfl

/-- The empty pool state: nothing allocated, all heaps zero. -/
def emptyPool : ListState where
  clients := fun _ => Client.zeroed
  conns := fun _ => Connection.zeroed
  slinks := fun _ => ⟨none, none⟩
  clientFreeList := []
  connFreeList := []
  slinkFreeList := []
  clientAllocCount := 0
  connectionAllocCount := 0
  slinkAllocCount := 0
  clientInUse := []
  connInUse := []
  freshPtr := 0
  globalClientList := none
  whowas := []
  events := []
  currentTime := 0
  tsTime := 0

/-- A pool state whose client free list holds the single cell 7 and whose
SLink free list holds cell 5 (cells chained accordingly). -/
def poolW : ListState :=
  { emptyPool with
      clientFreeList := [7]
      slinkFreeList := [5]
      slinks := upd emptyPool.slinks 5 ⟨none, some 9⟩
      freshPtr := 10 }

/-- init_list's loop grows the client free list by one cell per
iteration. -/
theorem init_loop_client_len (n : Nat) : ∀ s : ListState,
    (init_list_loop n s).clientFreeList.length = n + s.clientFreeList.length := by
  induction n with
  | zero => intro s; simp [init_list_loop]
  | succ m ih =>
    intro s
    have h := ih (init_list_step s)
    simp only [init_list_loop] at *
    rw [h]
    simp [init_list_step, setClient, setConn]
    omega

/-- init_list's loop grows the connection free list by one cell per
iteration. -/
theorem init_loop_conn_len (n : Nat) : ∀ s : ListState,
    (init_list_loop n s).connFreeList.length = n + s.connFreeList.length := by
  induction n with
  | zero => intro s; simp [init_list_loop]
  | succ m ih =>
    intro s
    have h := ih (init_list_step s)
    simp only [init_list_loop] at *
    rw [h]
    simp [init_list_step, setClient, setConn]
    omega

/-- init_list's loop never touches the SLink free list. -/
theorem init_loop_slink (n : Nat) : ∀ s : ListState,
    (init_list_loop n s).slinkFreeList = s.slinkFreeList := by
  induction n with
  | zero => intro s; simp [init_list_loop]
  | succ m ih =>
    intro s
    have h := ih (init_list_step s)
    simp only [init_list_loop] at *
    rw [h]
    simp [init_list_step, setClient, setConn]

/-- Claim C3 (corrected): after init_list, the client free list and the
connection free list each gained exactly MAXCONNECTIONS pre-allocated
records, but the SLink free list is untouched: init_list does not prime
it (make_link allocates SLink cells lazily). -/
theorem C3_init_primes_clients_and_connections (s : ListState) :
    (init_list s).clientFreeList.length = MAXCONNECTIONS + s.clientFreeList.length ∧
    (init_list s).connFreeList.length = MAXCONNECTIONS + s.connFreeList.length ∧
    (init_list s).slinkFreeList = s.slinkFreeList := by
  refine ⟨?_, ?_, ?_⟩
  · exact init_loop_client_len MAXCONNECTIONS s
  · exact init_loop_conn_len MAXCONNECTIONS s
  · exact init_loop_slink MAXCONNECTIONS s

/-- Claim C3 counterexample: starting from the empty pool, init_list
leaves the SLink (link) free list with 0 records, not MAXCONNECTIONS. -/
theorem C3_cex_slink_not_primed :
    ¬ ((init_list emptyPool).slinkFreeList.length = MAXCONNECTIONS) := by
  have h := init_loop_slink MAXCONNECTIONS emptyPool
  intro hc
  rw [init_list] at hc
  rw [h] at hc
  simp [emptyPool, MAXCONNECTIONS] at hc

/-- Claim C2 (corrected): when the client free list is non-empty,
alloc_client immediately followed by dealloc_client of the returned
record restores the free list exactly (hence its multiset of cells). -/
theorem C2_acquire_release_conserves (s : ListState) (c : Nat) (rest : List Nat)
    (h : s.clientFreeList = c :: rest) :
    (dealloc_client (alloc_client s).2 (alloc_client s).1).clientFreeList
      = s.clientFreeList := by
  simp only [alloc_client, h, dealloc_client, setClient]

/-- Witness for C2: the conservation theorem applied at a concrete pool
with free list [7]. -/
theorem C2_witness :
    (dealloc_client (alloc_client poolW).2 (alloc_client poolW).1).clientFreeList
      = poolW.clientFreeList :=
  C2_acquire_release_conserves poolW 7 [] rfl

/-- Claim C2 counterexample: with an empty free list, the acquire mallocs
a fresh cell and the release prepends it, so the free list's multiset of
cells changes (it gains one cell). -/
theorem C2_cex_empty_free_list :
    ¬ (((dealloc_client (alloc_client emptyPool).2 (alloc_client emptyPool).1).clientFreeList
          : Multiset Nat)
        = (emptyPool.clientFreeList : Multiset Nat)) := by
  decide

/-- Claim C5 (confirmed): free_connection (through the dealloc_connection
it calls) asserts that the processing timer is neither active nor on the
timer queue and that no client refers to the connection; dealloc_client
asserts that the client owns no connection; both verify the magic word on
release. -/
theorem C5_release_asserts (s : ListState) (con c : Nat)
    (hcon : free_connection_pre s con = true)
    (hcli : dealloc_client_pre s c = true) :
    (s.conns con).con_proc.t_active = false ∧
    (s.conns con).con_proc.t_onqueue = false ∧
    (s.conns con).con_client = none ∧
    (s.conns con).con_magic = CONNECTION_MAGIC ∧
    (s.clients c).cli_connect = none ∧
    (s.clients c).cli_magic = CLIENT_MAGIC := by
  simp only [free_connection_pre, dealloc_connection_pre, dealloc_client_pre,
    con_verify, cli_verify, Bool.and_eq_true, beq_iff_eq, Bool.not_eq_true'] at hcon hcli
  refine ⟨?_, ?_, ?_, ?_, ?_, ?_⟩ <;> tauto

/-- A state with one releasable connection (id 2) and one releasable
client (id 1): magic words set, timer idle, no cross references. -/
def poolRel : ListState :=
  { emptyPool with
      conns := upd emptyPool.conns 2 { Connection.zeroed with con_magic := CONNECTION_MAGIC }
      clients := upd emptyPool.clients 1 { Client.zeroed with cli_magic := CLIENT_MAGIC } }

/-- Witness for C5 at the concrete state poolRel. -/
theorem C5_witness :
    (poolRel.conns 2).con_proc.t_active = false ∧
    (poolRel.conns 2).con_proc.t_onqueue = false ∧
    (poolRel.conns 2).con_client = none ∧
    (poolRel.conns 2).con_magic = CONNECTION_MAGIC ∧
    (poolRel.clients 1).cli_connect = none ∧
    (poolRel.clients 1).cli_magic = CLIENT_MAGIC :=
  C5_release_asserts poolRel 2 1 (by decide) (by decide)

/-- Claim C9 (confirmed): free_client(NULL) and free_connection(NULL)
return without any change to the state. -/
theorem C9_null_noops (s : ListState) :
    free_client s none = s ∧ free_connection s none = s :=
  ⟨rfl, rfl⟩

/-- A state with a dirty but valid client record at id 0 (magic set,
status 7, no connection), as left behind by ordinary use. -/
def poolDirty : ListState :=
  { emptyPool with
      clients := upd emptyPool.clients 0
        { Client.zeroed with cli_magic := CLIENT_MAGIC, cli_status := 7 } }

/-- Claim C4 counterexample: after releasing the dirty client, the cell
sits on the free list with its memory not zeroed (status still 7):
objects residing on a free list are not zeroed by the release. -/
theorem C4_cex_free_cell_not_zeroed :
    0 ∈ (dealloc_client poolDirty 0).clientFreeList ∧
    (dealloc_client poolDirty 0).clients 0 ≠ Client.zeroed ∧
    ((dealloc_client poolDirty 0).clients 0).cli_status = 7 := by
  refine ⟨?_, ?_, ?_⟩ <;> decide

/-- Claim C4 (corrected): on release the magic word is cleared (the cell
is poisoned) but the memory is not zeroed; the zeroing happens at the
subsequent acquire: alloc_client and alloc_connection always return a
fully zeroed cell (they memset either way), while make_link returns the
free-list head cell without modifying or zeroing it. -/
theorem C4_poison_on_release_zero_on_acquire :
    (∀ s c, ((dealloc_client s c).clients c).cli_magic = 0) ∧
    (∀ s k, ((dealloc_connection s k).conns k).con_magic = 0) ∧
    (∀ s, (alloc_client s).2.clients (alloc_client s).1 = Client.zeroed) ∧
    (∀ s, (alloc_connection s).2.conns (alloc_connection s).1 = Connection.zeroed) ∧
    (∀ s l rest, s.slinkFreeList = l :: rest →
       (make_link s).1 = l ∧ (make_link s).2.slinks l = s.slinks l ∧
       (make_link s).2.slinkFreeList = rest) := by
  refine ⟨?_, ?_, ?_, ?_, ?_⟩
  · intro s c; simp [dealloc_client, setClient, upd]
  · intro s k
    simp only [dealloc_connection]
    split <;> split <;> split <;> simp [setConn, upd]
  · intro s
    rcases h : s.clientFreeList with _ | ⟨c, rest⟩ <;>
      simp [alloc_client, h, setClient, upd]
  · intro s
    rcases h : s.connFreeList with _ | ⟨k, rest⟩ <;>
      simp [alloc_connection, h, setConn, upd, Connection.zeroed, timer_init]
  · intro s l rest h
    simp [make_link, h]

/-- Witness for C4: the make_link conjunct applied at the concrete pool
poolW whose SLink free list is [5]. -/
theorem C4_witness :
    (make_link poolW).1 = 5 ∧ (make_link poolW).2.slinks 5 = poolW.slinks 5 ∧
    (make_link poolW).2.slinkFreeList = [] :=
  C4_poison_on_release_zero_on_acquire.2.2.2.2 poolW 5 [] rfl

@[simp] theorem dealloc_client_clientFreeList (s : ListState) (c : Nat) :
    (dealloc_client s c).clientFreeList = c :: s.clientFreeList := rfl

@[simp] theorem dealloc_client_connFreeList (s : ListState) (c : Nat) :
    (dealloc_client s c).connFreeList = s.connFreeList := rfl

@[simp] theorem dealloc_client_events (s : ListState) (c : Nat) :
    (dealloc_client s c).events = s.events := rfl

@[simp] theorem dealloc_client_globalClientList (s : ListState) (c : Nat) :
    (dealloc_client s c).globalClientList = s.globalClientList := rfl

@[simp] theorem dealloc_client_whowas (s : ListState) (c : Nat) :
    (dealloc_client s c).whowas = s.whowas := rfl

@[simp] theorem dealloc_client_conns (s : ListState) (c : Nat) :
    (dealloc_client s c).conns = s.conns := rfl

@[simp] theorem dealloc_client_clients_at (s : ListState) (c : Nat) :
    (dealloc_client s c).clients c =
      { s.clients c with cli_next := s.clientFreeList.head?, cli_magic := 0 } := by
  simp [dealloc_client]

@[simp] theorem dealloc_client_clients_ne (s : ListState) (c x : Nat) (h : x ≠ c) :
    (dealloc_client s c).clients x = s.clients x := by
  simp [dealloc_client, h]

/-- dealloc_connection always prepends the record to the connection free
list, whatever the dns/fd/listener state. -/
@[simp] theorem dealloc_connection_freeList (s : ListState) (k : Nat) :
    (dealloc_connection s k).connFreeList = k :: s.connFreeList := by
  simp only [dealloc_connection]
  split <;> split <;> split <;> simp [setConn]

@[simp] theorem dealloc_connection_clients (s : ListState) (k : Nat) :
    (dealloc_connection s k).clients = s.clients := by
  simp only [dealloc_connection]
  split <;> split <;> split <;> rfl

@[simp] theorem dealloc_connection_clientFreeList (s : ListState) (k : Nat) :
    (dealloc_connection s k).clientFreeList = s.clientFreeList := by
  simp only [dealloc_connection]
  split <;> split <;> split <;> rfl

@[simp] theorem dealloc_connection_globalClientList (s : ListState) (k : Nat) :
    (dealloc_connection s k).globalClientList = s.globalClientList := by
  simp only [dealloc_connection]
  split <;> split <;> split <;> rfl

@[simp] theorem dealloc_connection_whowas (s : ListState) (k : Nat) :
    (dealloc_connection s k).whowas = s.whowas := by
  simp only [dealloc_connection]
  split <;> split <;> split <;> rfl

/-- dealloc_connection emits no socket_del / timer_del events. -/
theorem dealloc_connection_events_no_del (s : ListState) (k j : Nat) :
    (Event.socketDel j ∈ (dealloc_connection s k).events ↔ Event.socketDel j ∈ s.events) ∧
    (Event.timerDel j ∈ (dealloc_connection s k).events ↔ Event.timerDel j ∈ s.events) := by
  simp only [dealloc_connection]
  split <;> split <;> split <;> simp [setConn]

/-- Claim C7 (confirmed): for a local client (its connection's
con_client back-pointer is itself), free_client releases the Connection
to the pool exactly when the connection's freeflag is zero and its
processing timer is inactive; otherwise the connection is not released
and free_client only queues a socket deletion (when FREEFLAG_SOCKET is
set and the fd is open) and/or a timer deletion (when FREEFLAG_TIMER is
set). -/
theorem C7_lazy_teardown (s : ListState) (c k : Nat)
    (hconn : (s.clients c).cli_connect = some k)
    (hlocal : (s.conns k).con_client = some c)
    (hnf : k ∉ s.connFreeList) :
    (k ∈ (free_client s (some c)).connFreeList ↔
       ((s.conns k).con_freeflag = 0 ∧ (s.conns k).con_proc.t_active = false)) ∧
    (¬ ((s.conns k).con_freeflag = 0 ∧ (s.conns k).con_proc.t_active = false) →
       (free_client s (some c)).connFreeList = s.connFreeList ∧
       (free_client s (some c)).events = s.events
         ++ (if (s.conns k).con_auth then [Event.destroyAuth c] else [])
         ++ (if ((-1 : Int) < (s.conns k).con_fd
                  && (s.conns k).con_freeflag &&& FREEFLAG_SOCKET != 0) then
               [Event.socketDel k] else [])
         ++ (if ((s.conns k).con_freeflag &&& FREEFLAG_TIMER != 0) then
               [Event.timerDel k] else [])) := by
  cases hauth : (s.conns k).con_auth <;>
  cases hta : (s.conns k).con_proc.t_active <;>
  by_cases hff : (s.conns k).con_freeflag = 0 <;>
  by_cases hfd : ((-1 : Int) < (s.conns k).con_fd) <;>
  by_cases hsk : ((s.conns k).con_freeflag &&& FREEFLAG_SOCKET = 0) <;>
  by_cases htm : ((s.conns k).con_freeflag &&& FREEFLAG_TIMER = 0) <;>
    simp [free_client, hconn, hauth, hta, hff, hfd, hsk, htm, hlocal, hnf,
      Nat.zero_and, List.append_assoc]

/-- A state with one local client: client 3 owns connection 4, whose
freeflag has FREEFLAG_TIMER set and whose fd is open. -/
def c7client : Client :=
  { Client.zeroed with cli_magic := CLIENT_MAGIC, cli_connect := some 4 }

/-- The connection record for poolC7. -/
def c7conn : Connection :=
  { Connection.zeroed with
      con_magic := CONNECTION_MAGIC
      con_client := some 3
      con_freeflag := 2
      con_fd := 5
      con_auth := true }

/-- The state with local client 3 owning connection 4. -/
def poolC7 : ListState :=
  { emptyPool with
      clients := upd emptyPool.clients 3 c7client
      conns := upd emptyPool.conns 4 c7conn
      clientInUse := [3]
      connInUse := [4]
      freshPtr := 10 }

/-- Witness for C7 at the concrete local client 3 / connection 4. -/
theorem C7_witness :
    (4 ∈ (free_client poolC7 (some 3)).connFreeList ↔
       ((poolC7.conns 4).con_freeflag = 0 ∧ (poolC7.conns 4).con_proc.t_active = false)) ∧
    (¬ ((poolC7.conns 4).con_freeflag = 0 ∧ (poolC7.conns 4).con_proc.t_active = false) →
       (free_client poolC7 (some 3)).connFreeList = poolC7.connFreeList ∧
       (free_client poolC7 (some 3)).events = poolC7.events
         ++ (if (poolC7.conns 4).con_auth then [Event.destroyAuth 3] else [])
         ++ (if ((-1 : Int) < (poolC7.conns 4).con_fd
                  && (poolC7.conns 4).con_freeflag &&& FREEFLAG_SOCKET != 0) then
               [Event.socketDel 4] else [])
         ++ (if ((poolC7.conns 4).con_freeflag &&& FREEFLAG_TIMER != 0) then
               [Event.timerDel 4] else [])) :=
  C7_lazy_teardown poolC7 3 4 (by decide) (by decide) (by decide)

/-- The in-use clients whose cli_connect field refers to connection k. -/
def connect_referrers (s : ListState) (k : Nat) : List Nat :=
  s.clientInUse.filter (fun c => (s.clients c).cli_connect == some k)

/-- Connection k has an owner: the in-use client its con_client
back-pointer names, which refers back through cli_connect. -/
def ownerOK (s : ListState) (k : Nat) : Prop :=
  ∃ c ∈ s.clientInUse, (s.conns k).con_client = some c ∧
    (s.clients c).cli_connect = some k

instance (s : ListState) (k : Nat) : Decidable (ownerOK s k) := by
  unfold ownerOK; infer_instance

/-- Every in-use connection has an owner. -/
def connOwnership (s : ListState) : Prop :=
  ∀ k ∈ s.connInUse, ownerOK s k

instance (s : ListState) : Decidable (connOwnership s) := by
  unfold connOwnership; infer_instance

/-- Pool sanity: all tracked ids lie below the malloc frontier, and the
free lists are disjoint from the in-use lists. -/
def poolWF (s : ListState) : Prop :=
  (∀ c ∈ s.clientInUse, c < s.freshPtr) ∧ (∀ k ∈ s.connInUse, k < s.freshPtr) ∧
  (∀ c ∈ s.clientFreeList, c < s.freshPtr) ∧ (∀ k ∈ s.connFreeList, k < s.freshPtr) ∧
  (∀ c ∈ s.clientFreeList, c ∉ s.clientInUse) ∧ (∀ k ∈ s.connFreeList, k ∉ s.connInUse)

instance (s : ListState) : Decidable (poolWF s) := by
  unfold poolWF; infer_instance

/-- An owner, when it exists, is unique: con_client names it. -/
theorem ownerOK_unique (s : ListState) (k : Nat) (h : ownerOK s k) :
    ∃! c, (s.conns k).con_client = some c ∧ c ∈ s.clientInUse ∧
      (s.clients c).cli_connect = some k := by
  obtain ⟨c, hmem, hcc, hback⟩ := h
  refine ⟨c, ⟨hcc, hmem, hback⟩, ?_⟩
  rintro c' ⟨hcc', -, -⟩
  exact Option.some.inj (hcc'.symm.trans hcc)

theorem alloc_client_conns (s : ListState) : (alloc_client s).2.conns = s.conns := by
  rcases h : s.clientFreeList with _ | ⟨c, r⟩ <;> simp [alloc_client, h]

theorem alloc_client_connInUse (s : ListState) :
    (alloc_client s).2.connInUse = s.connInUse := by
  rcases h : s.clientFreeList with _ | ⟨c, r⟩ <;> simp [alloc_client, h]

theorem alloc_client_connFreeList (s : ListState) :
    (alloc_client s).2.connFreeList = s.connFreeList := by
  rcases h : s.clientFreeList with _ | ⟨c, r⟩ <;> simp [alloc_client, h]

theorem alloc_client_clientInUse (s : ListState) :
    (alloc_client s).2.clientInUse = (alloc_client s).1 :: s.clientInUse := by
  rcases h : s.clientFreeList with _ | ⟨c, r⟩ <;> simp [alloc_client, h]

theorem alloc_client_clients_ne (s : ListState) (x : Nat)
    (hx : x ≠ (alloc_client s).1) : (alloc_client s).2.clients x = s.clients x := by
  rcases h : s.clientFreeList with _ | ⟨c, r⟩ <;>
    (simp [alloc_client, h] at hx ⊢; simp [hx])

theorem alloc_client_freshPtr_le (s : ListState) :
    s.freshPtr ≤ (alloc_client s).2.freshPtr := by
  rcases h : s.clientFreeList with _ | ⟨c, r⟩ <;> simp [alloc_client, h]

theorem alloc_client_origin (s : ListState) :
    (alloc_client s).1 ∈ s.clientFreeList ∨ (alloc_client s).1 = s.freshPtr := by
  rcases h : s.clientFreeList with _ | ⟨c, r⟩ <;> simp [alloc_client, h]

theorem alloc_connection_clients (s : ListState) :
    (alloc_connection s).2.clients = s.clients := by
  rcases h : s.connFreeList with _ | ⟨c, r⟩ <;> simp [alloc_connection, h]

theorem alloc_connection_clientInUse (s : ListState) :
    (alloc_connection s).2.clientInUse = s.clientInUse := by
  rcases h : s.connFreeList with _ | ⟨c, r⟩ <;> simp [alloc_connection, h]

theorem alloc_connection_connInUse (s : ListState) :
    (alloc_connection s).2.connInUse = (alloc_connection s).1 :: s.connInUse := by
  rcases h : s.connFreeList with _ | ⟨c, r⟩ <;> simp [alloc_connection, h]

theorem alloc_connection_conns_ne (s : ListState) (x : Nat)
    (hx : x ≠ (alloc_connection s).1) :
    (alloc_connection s).2.conns x = s.conns x := by
  rcases h : s.connFreeList with _ | ⟨c, r⟩ <;>
    (simp [alloc_connection, h] at hx ⊢; simp [hx])

theorem alloc_connection_freshPtr_le (s : ListState) :
    s.freshPtr ≤ (alloc_connection s).2.freshPtr := by
  rcases h : s.connFreeList with _ | ⟨c, r⟩ <;> simp [alloc_connection, h]

theorem alloc_connection_origin (s : ListState) :
    (alloc_connection s).1 ∈ s.connFreeList ∨ (alloc_connection s).1 = s.freshPtr := by
  rcases h : s.connFreeList with _ | ⟨c, r⟩ <;> simp [alloc_connection, h]

/-- A local server client (id 1) owning connection 3, for the C1
counterexample and witness. -/
def c1server : Client :=
  { Client.zeroed with cli_magic := CLIENT_MAGIC, cli_connect := some 3 }

/-- Connection 3, attached to client 1. -/
def c1conn : Connection :=
  { Connection.zeroed with
      con_magic := CONNECTION_MAGIC
      con_client := some 1 }

/-- A well-formed state with one in-use client (1) owning one in-use
connection (3). -/
def poolC1 : ListState :=
  { emptyPool with
      clients := upd emptyPool.clients 1 c1server
      conns := upd emptyPool.conns 3 c1conn
      clientInUse := [1]
      connInUse := [3]
      freshPtr := 10 }

/-- Claim C1 counterexample: starting from a state satisfying the
ownership invariant, make_client with a non-null `from` (a server
connection) makes the new remote client share from's connection, so TWO
in-use clients refer to connection 3 via their connect fields — not
exactly one. -/
theorem C1_cex_remote_client_shares_connection :
    connOwnership poolC1 ∧
    (make_client poolC1 (some 1) STAT_USER).1 = 10 ∧
    connect_referrers (make_client poolC1 (some 1) STAT_USER).2 3 = [10, 1] ∧
    ¬ ((connect_referrers (make_client poolC1 (some 1) STAT_USER).2 3).length = 1) := by
  refine ⟨by decide, by decide, by decide, by decide⟩

/-- Claim C1 (corrected): ownership is one-to-one through the
connection's con_client back-pointer, not through the clients' connect
fields (several remote clients share their server's connection via
connect).  If every in-use connection has a unique owner — the in-use
client named by its con_client, referring back via cli_connect — then
make_client preserves this; with from = NULL the fresh connection's sole
owner is the new client and that client is local (cli_from is itself);
with from non-null no connection record or con_client field changes at
all. -/
theorem C1_connection_has_unique_owner (s : ListState) (frm : Option Nat) (st : Nat)
    (hwf : poolWF s) (hown : connOwnership s) :
    (∀ k ∈ (make_client s frm st).2.connInUse,
       ∃! c, ((make_client s frm st).2.conns k).con_client = some c ∧
         c ∈ (make_client s frm st).2.clientInUse ∧
         ((make_client s frm st).2.clients c).cli_connect = some k) ∧
    (frm = none → ∃ k,
       ((make_client s frm st).2.clients (make_client s frm st).1).cli_connect = some k ∧
       ((make_client s frm st).2.conns k).con_client = some (make_client s frm st).1 ∧
       cli_from (make_client s frm st).2 (make_client s frm st).1
         = some (make_client s frm st).1) ∧
    (∀ f, frm = some f → (make_client s frm st).2.conns = s.conns) := by
  obtain ⟨hciu, hkiu, hcfl, hkfl, hcdis, hkdis⟩ := hwf
  cases frm with
  | some f =>
    rcases halloc : alloc_client s with ⟨cptr, s1⟩
    have hconns1 : s1.conns = s.conns := by
      have h := alloc_client_conns s; rw [halloc] at h; exact h
    have hcin1 : s1.clientInUse = cptr :: s.clientInUse := by
      have h := alloc_client_clientInUse s; rw [halloc] at h; exact h
    have hkin1 : s1.connInUse = s.connInUse := by
      have h := alloc_client_connInUse s; rw [halloc] at h; exact h
    have hclne1 : ∀ x, x ≠ cptr → s1.clients x = s.clients x := by
      intro x hx
      have h := alloc_client_clients_ne s x (by rw [halloc]; exact hx)
      rw [halloc] at h; exact h
    have hcnotin : cptr ∉ s.clientInUse := by
      have h := alloc_client_origin s
      rw [halloc] at h
      rcases h with hmem | hfresh
      · exact hcdis cptr hmem
      · intro hin; have := hciu cptr hin; omega
    simp only [make_client, halloc]
    refine ⟨?_, ?_, ?_⟩
    · intro k hk
      simp only [setClient_connInUse] at hk
      rw [hkin1] at hk
      obtain ⟨c, hcmem, hcc, hback⟩ := hown k hk
      have hcne : c ≠ cptr := fun h => hcnotin (h ▸ hcmem)
      apply ownerOK_unique
      refine ⟨c, ?_, ?_, ?_⟩
      · simp only [setClient_clientInUse]
        rw [hcin1]; exact List.mem_cons_of_mem _ hcmem
      · simp only [setClient_conns]; rw [hconns1]; exact hcc
      · rw [setClient_clients_ne _ _ _ c hcne, setClient_clients_ne _ _ _ c hcne,
          hclne1 c hcne]
        exact hback
    · intro h; exact absurd h (by simp)
    · intro f' hf'
      simp only [setClient_conns]; exact hconns1
  | none =>
    rcases halloc : alloc_client s with ⟨cptr, s1⟩
    rcases hcona : alloc_connection s1 with ⟨con, s2⟩
    have hconns1 : s1.conns = s.conns := by
      have h := alloc_client_conns s; rw [halloc] at h; exact h
    have hcin1 : s1.clientInUse = cptr :: s.clientInUse := by
      have h := alloc_client_clientInUse s; rw [halloc] at h; exact h
    have hkin1 : s1.connInUse = s.connInUse := by
      have h := alloc_client_connInUse s; rw [halloc] at h; exact h
    have hclne1 : ∀ x, x ≠ cptr → s1.clients x = s.clients x := by
      intro x hx
      have h := alloc_client_clients_ne s x (by rw [halloc]; exact hx)
      rw [halloc] at h; exact h
    have hfr1 : s.freshPtr ≤ s1.freshPtr := by
      have h := alloc_client_freshPtr_le s; rw [halloc] at h; exact h
    have hkfl1 : s1.connFreeList = s.connFreeList := by
      have h := alloc_client_connFreeList s; rw [halloc] at h; exact h
    have hcnotin : cptr ∉ s.clientInUse := by
      have h := alloc_client_origin s
      rw [halloc] at h
      rcases h with hmem | hfresh
      · exact hcdis cptr hmem
      · intro hin; have := hciu cptr hin; omega
    have hcl2 : s2.clients = s1.clients := by
      have h := alloc_connection_clients s1; rw [hcona] at h; exact h
    have hcin2 : s2.clientInUse = s1.clientInUse := by
      have h := alloc_connection_clientInUse s1; rw [hcona] at h; exact h
    have hkin2 : s2.connInUse = con :: s1.connInUse := by
      have h := alloc_connection_connInUse s1; rw [hcona] at h; exact h
    have hkne2 : ∀ x, x ≠ con → s2.conns x = s1.conns x := by
      intro x hx
      have h := alloc_connection_conns_ne s1 x (by rw [hcona]; exact hx)
      rw [hcona] at h; exact h
    have hknotin : con ∉ s.connInUse := by
      have h := alloc_connection_origin s1
      rw [hcona] at h
      rcases h with hmem | hfresh
      · rw [hkfl1] at hmem; exact hkdis con hmem
      · intro hin; have := hkiu con hin; omega
    simp only [make_client, halloc, hcona]
    refine ⟨?_, ?_, ?_⟩
    · intro k hk
      simp only [setClient_connInUse, setConn_connInUse] at hk
      rw [hkin2, hkin1] at hk
      rcases List.mem_cons.mp hk with rfl | hk'
      · apply ownerOK_unique
        refine ⟨cptr, ?_, ?_, ?_⟩
        · simp only [setClient_clientInUse, setConn_clientInUse]
          rw [hcin2, hcin1]; exact List.mem_cons_self _ _
        · simp
        · simp
      · have hkne : k ≠ con := by intro h; subst h; exact hknotin hk'
        obtain ⟨c, hcmem, hcc, hback⟩ := hown k hk'
        have hcne : c ≠ cptr := fun h => hcnotin (h ▸ hcmem)
        apply ownerOK_unique
        refine ⟨c, ?_, ?_, ?_⟩
        · simp only [setClient_clientInUse, setConn_clientInUse]
          rw [hcin2, hcin1]; exact List.mem_cons_of_mem _ hcmem
        · simp only [setClient_conns, setConn_conns_ne, ne_eq, hkne,
            not_false_eq_true]
          rw [hkne2 k hkne, hconns1]
          exact hcc
        · simp only [setConn_clients, setClient_clients_ne, ne_eq, hcne,
            not_false_eq_true]
          rw [hcl2, hclne1 c hcne]
          exact hback
    · intro hnone
      refine ⟨con, by simp, by simp, ?_⟩
      simp [cli_from]
    · intro f hf; exact absurd hf (by simp)

/-- Witness for C1: the ownership theorem applied at poolC1 with a NULL
from argument. -/
theorem C1_witness :
    (∀ k ∈ (make_client poolC1 none STAT_USER).2.connInUse,
       ∃! c, ((make_client poolC1 none STAT_USER).2.conns k).con_client = some c ∧
         c ∈ (make_client poolC1 none STAT_USER).2.clientInUse ∧
         ((make_client poolC1 none STAT_USER).2.clients c).cli_connect = some k) ∧
    (none = (none : Option Nat) → ∃ k,
       ((make_client poolC1 none STAT_USER).2.clients
           (make_client poolC1 none STAT_USER).1).cli_connect = some k ∧
       ((make_client poolC1 none STAT_USER).2.conns k).con_client
           = some (make_client poolC1 none STAT_USER).1 ∧
       cli_from (make_client poolC1 none STAT_USER).2
           (make_client poolC1 none STAT_USER).1
         = some (make_client poolC1 none STAT_USER).1) ∧
    (∀ f, (none : Option Nat) = some f →
       (make_client poolC1 none STAT_USER).2.conns = poolC1.conns) :=
  C1_connection_has_unique_owner poolC1 none STAT_USER (by decide) (by decide)

/-- Claim C10 (confirmed): for a well-formed list head (the head node's
prev is NULL) and a fresh allocator id, add_dlink followed by
remove_dlink of the node it returned restores the original root pointer
and leaves every surviving node's fields exactly as they were; the
allocated node itself is freed. -/
theorem C10_add_remove_dlink_roundtrip (s : DState) (root : Option Nat) (cp : Nat)
    (hhead : ∀ h, root = some h → (s.nodes h).dl_prev = none ∧ h ≠ s.freshD) :
    (remove_dlink (add_dlink s root cp).2.2 (add_dlink s root cp).2.1
        (add_dlink s root cp).1).1 = root ∧
    (∀ i, i ≠ (add_dlink s root cp).1 →
       (remove_dlink (add_dlink s root cp).2.2 (add_dlink s root cp).2.1
          (add_dlink s root cp).1).2.nodes i = s.nodes i) ∧
    (remove_dlink (add_dlink s root cp).2.2 (add_dlink s root cp).2.1
        (add_dlink s root cp).1).2.valid (add_dlink s root cp).1 = false := by
  cases root with
  | none =>
    refine ⟨?_, ?_, ?_⟩
    · simp [add_dlink, remove_dlink, setNode, upd]
    · intro i hi
      simp only [add_dlink] at hi
      simp [add_dlink, remove_dlink, setNode, upd, hi]
    · simp [add_dlink, remove_dlink, setNode, upd]
  | some h =>
    obtain ⟨hprev, hne⟩ := hhead h rfl
    have hne' : s.freshD ≠ h := fun e => hne e.symm
    rcases hnode : s.nodes h with ⟨v, p, n⟩
    have hp : p = none := by rw [hnode] at hprev; exact hprev
    subst hp
    refine ⟨?_, ?_, ?_⟩
    · simp [add_dlink, remove_dlink, setNode, upd, hne, hne']
    · intro i hi
      simp only [add_dlink] at hi
      by_cases hih : i = h
      · subst hih
        simp [add_dlink, remove_dlink, setNode, upd, hne, hne', hnode, hi]
      · simp [add_dlink, remove_dlink, setNode, upd, hne, hne', hih, hi]
    · simp [add_dlink, remove_dlink, setNode, upd, hne, hne']

/-- A concrete two-node doubly linked list: root 20, then 21. -/
def dlinkW : DState where
  nodes := upd (upd (fun _ => ⟨0, none, none⟩) 20 ⟨100, none, some 21⟩) 21 ⟨101, some 20, none⟩
  valid := fun i => i == 20 || i == 21
  freshD := 30

/-- Witness for C10 at the concrete two-node list. -/
theorem C10_witness :
    (remove_dlink (add_dlink dlinkW (some 20) 7).2.2 (add_dlink dlinkW (some 20) 7).2.1
        (add_dlink dlinkW (some 20) 7).1).1 = some 20 ∧
    (∀ i, i ≠ (add_dlink dlinkW (some 20) 7).1 →
       (remove_dlink (add_dlink dlinkW (some 20) 7).2.2 (add_dlink dlinkW (some 20) 7).2.1
          (add_dlink dlinkW (some 20) 7).1).2.nodes i = dlinkW.nodes i) ∧
    (remove_dlink (add_dlink dlinkW (some 20) 7).2.2 (add_dlink dlinkW (some 20) 7).2.1
        (add_dlink dlinkW (some 20) 7).1).2.valid (add_dlink dlinkW (some 20) 7).1 = false :=
  C10_add_remove_dlink_roundtrip dlinkW (some 20) 7 (by
    intro h hh
    injection hh with e
    subst e
    exact ⟨by decide, by decide⟩)

@[simp] theorem listSeg_nil (h : Nat → Client) (p q : Option Nat) :
    listSeg h p q [] = (q == none) := rfl

@[simp] theorem listSeg_cons (h : Nat → Client) (p q : Option Nat) (c : Nat)
    (rest : List Nat) :
    listSeg h p q (c :: rest) =
      (q == some c && (h c).cli_prev == p && listSeg h (some c) (h c).cli_next rest) := rfl

/-- Unfolding a chain check one node at a time, in Prop form. -/
theorem listSeg_cons_iff {h : Nat → Client} {p q : Option Nat} {c : Nat}
    {rest : List Nat} :
    listSeg h p q (c :: rest) = true ↔
      q = some c ∧ (h c).cli_prev = p ∧
        listSeg h (some c) (h c).cli_next rest = true := by
  simp [Bool.and_eq_true, and_assoc]

/-- A chain check only looks at the records of the nodes on the chain. -/
theorem listSeg_frame : ∀ (L : List Nat) (h h2 : Nat → Client) (p q : Option Nat),
    listSeg h p q L = true → (∀ x ∈ L, h2 x = h x) → listSeg h2 p q L = true := by
  intro L
  induction L with
  | nil => intro h h2 p q hs _; simpa using hs
  | cons c rest ih =>
    intro h h2 p q hs hag
    rw [listSeg_cons_iff] at hs
    obtain ⟨hq, hp, hrest⟩ := hs
    have hc : h2 c = h c := hag c (List.mem_cons_self _ _)
    rw [listSeg_cons_iff, hc]
    exact ⟨hq, hp, ih h h2 _ _ hrest fun x hx => hag x (List.mem_cons_of_mem _ hx)⟩

/-- On a chain, the node before `d` links forward to it. -/
theorem listSeg_next_entry : ∀ (M : List Nat) (h : Nat → Client) (p q : Option Nat)
    (c d : Nat) (rest : List Nat),
    listSeg h p q (M ++ c :: d :: rest) = true → (h c).cli_next = some d := by
  intro M
  induction M with
  | nil =>
    intro h p q c d rest hs
    rw [List.nil_append, listSeg_cons_iff] at hs
    obtain ⟨-, -, hs⟩ := hs
    rw [listSeg_cons_iff] at hs
    exact hs.1
  | cons a M2 ih =>
    intro h p q c d rest hs
    rw [List.cons_append, listSeg_cons_iff] at hs
    exact ih h _ _ c d rest hs.2.2

/-- On a chain, a node's back-pointer is the last node of the part before
it (or the segment entry pointer when nothing precedes it). -/
theorem listSeg_prev_entry : ∀ (M : List Nat) (h : Nat → Client) (p q : Option Nat)
    (c : Nat) (rest : List Nat),
    listSeg h p q (M ++ c :: rest) = true →
    (h c).cli_prev = (match M.getLast? with | none => p | some m => some m) := by
  intro M
  induction M with
  | nil =>
    intro h p q c rest hs
    rw [List.nil_append, listSeg_cons_iff] at hs
    simpa using hs.2.1
  | cons a M2 ih =>
    intro h p q c rest hs
    rw [List.cons_append, listSeg_cons_iff] at hs
    have h2 := ih h (some a) ((h a).cli_next) c rest hs.2.2
    cases hM2 : M2 with
    | nil =>
      subst hM2
      simpa using h2
    | cons b M3 =>
      subst hM2
      rw [List.getLast?_cons_cons]
      rcases hgl : (b :: M3).getLast? with _ | m
      · simp [List.getLast?_eq_none_iff] at hgl
      · rw [hgl] at h2; exact h2

/-- Pointwise effect of the delink when cptr sits mid-chain (it has both
a predecessor pv and a successor q). -/
theorem delink_global_spec_mid (s : ListState) (cptr q pv : Nat)
    (hq : (s.clients cptr).cli_next = some q)
    (hp : (s.clients cptr).cli_prev = some pv)
    (hpc : pv ≠ cptr) (hpq : pv ≠ q) (hqc : q ≠ cptr) :
    (delink_global s cptr).globalClientList = s.globalClientList ∧
    (delink_global s cptr).clients cptr =
      { s.clients cptr with cli_next := none, cli_prev := none } ∧
    (delink_global s cptr).clients pv = { s.clients pv with cli_next := some q } ∧
    (delink_global s cptr).clients q = { s.clients q with cli_prev := some pv } ∧
    (∀ x, x ≠ cptr → x ≠ pv → x ≠ q →
       (delink_global s cptr).clients x = s.clients x) ∧
    (delink_global s cptr).clientFreeList = s.clientFreeList ∧
    (delink_global s cptr).whowas = s.whowas := by
  refine ⟨?_, ?_, ?_, ?_, ?_, ?_, ?_⟩
  · simp [delink_global, hq, hp]
  · simp [delink_global, hq, hp, hpc, Ne.symm hpc, hqc, Ne.symm hqc]
  · simp [delink_global, hq, hp, hpc, Ne.symm hpc, hpq, Ne.symm hpq, hq]
  · simp [delink_global, hq, hp, hpc, Ne.symm hpc, hpq, Ne.symm hpq, hqc, Ne.symm hqc]
  · intro x hxc hxp hxq
    simp [delink_global, hq, hp, hxc, hxp, hxq]
  · simp [delink_global, hq, hp]
  · simp [delink_global, hq, hp]

/-- Pointwise effect of the delink when cptr is the list head (no
predecessor, successor q). -/
theorem delink_global_spec_head (s : ListState) (cptr q : Nat)
    (hq : (s.clients cptr).cli_next = some q)
    (hp : (s.clients cptr).cli_prev = none) (hqc : q ≠ cptr) :
    (delink_global s cptr).globalClientList = some q ∧
    (delink_global s cptr).clients cptr =
      { s.clients cptr with cli_next := none, cli_prev := none } ∧
    (delink_global s cptr).clients q = { s.clients q with cli_prev := none } ∧
    (∀ x, x ≠ cptr → x ≠ q → (delink_global s cptr).clients x = s.clients x) ∧
    (delink_global s cptr).clientFreeList = s.clientFreeList ∧
    (delink_global s cptr).whowas = s.whowas := by
  refine ⟨?_, ?_, ?_, ?_, ?_, ?_⟩
  · simp [delink_global, hq, hp]
  · simp [delink_global, hq, hp, hqc, Ne.symm hqc]
  · simp [delink_global, hq, hp, hqc, Ne.symm hqc]
  · intro x hxc hxq
    simp [delink_global, hq, hp, hxc, hxq]
  · simp [delink_global, hq, hp]
  · simp [delink_global, hq, hp]

/-- Pointwise effect of the delink when cptr has no successor: the list
is not touched, only cptr's own pointers are cleared. -/
theorem delink_global_spec_detached (s : ListState) (cptr : Nat)
    (hq : (s.clients cptr).cli_next = none) :
    (delink_global s cptr).globalClientList = s.globalClientList ∧
    (delink_global s cptr).clients cptr =
      { s.clients cptr with cli_next := none, cli_prev := none } ∧
    (∀ x, x ≠ cptr → (delink_global s cptr).clients x = s.clients x) ∧
    (delink_global s cptr).clientFreeList = s.clientFreeList ∧
    (delink_global s cptr).whowas = s.whowas := by
  refine ⟨?_, ?_, ?_, ?_, ?_⟩
  · simp [delink_global, hq]
  · simp [delink_global, hq]
  · intro x hxc
    simp [delink_global, hq, hxc]
  · simp [delink_global, hq]
  · simp [delink_global, hq]

/-- The delink repairs the chain: removing cptr from anywhere in the
middle of a valid chain (cptr is followed by q) yields a valid chain
without cptr.  Generalized over the chain entry for the induction. -/
theorem delink_seg_aux (s : ListState) (cptr q : Nat) (L2 : List Nat)
    (hq : (s.clients cptr).cli_next = some q)
    (hqc : q ≠ cptr) (hqL2 : q ∉ L2) (hcL2 : cptr ∉ L2)
    (hpv : ∀ pv, (s.clients cptr).cli_prev = some pv →
       pv ≠ cptr ∧ pv ≠ q ∧ pv ∉ L2) :
    ∀ (L1 : List Nat) (prevPtr ptr : Option Nat),
      listSeg s.clients prevPtr ptr (L1 ++ cptr :: q :: L2) = true →
      (L1 ++ cptr :: q :: L2).Nodup →
      listSeg (delink_global s cptr).clients prevPtr
        (if L1 = [] then some q else ptr) (L1 ++ q :: L2) = true := by
  intro L1
  induction L1 with
  | nil =>
    intro prevPtr ptr hs hnd
    rw [List.nil_append, listSeg_cons_iff] at hs
    obtain ⟨hptr, hprev, hs2⟩ := hs
    rw [hq, listSeg_cons_iff] at hs2
    obtain ⟨-, hqprev, hs3⟩ := hs2
    rw [if_pos rfl, List.nil_append, listSeg_cons_iff]
    rcases hpc : (s.clients cptr).cli_prev with _ | pv
    · have e : prevPtr = none := by rw [hpc] at hprev; exact hprev.symm
      obtain ⟨-, -, hqq, hothers, -, -⟩ :=
        delink_global_spec_head s cptr q hq hpc hqc
      refine ⟨rfl, ?_, ?_⟩
      · rw [hqq, e]
      · rw [hqq]
        exact listSeg_frame L2 s.clients _ _ _ hs3
          (fun x hx => hothers x (fun e2 => hcL2 (e2 ▸ hx)) (fun e2 => hqL2 (e2 ▸ hx)))
    · obtain ⟨hpv1, hpv2, hpv3⟩ := hpv pv hpc
      have e : prevPtr = some pv := by rw [hpc] at hprev; exact hprev.symm
      obtain ⟨-, -, -, hqq, hothers, -, -⟩ :=
        delink_global_spec_mid s cptr q pv hq hpc hpv1 hpv2 hqc
      refine ⟨rfl, ?_, ?_⟩
      · rw [hqq, e]
      · rw [hqq]
        exact listSeg_frame L2 s.clients _ _ _ hs3
          (fun x hx => hothers x (fun e2 => hcL2 (e2 ▸ hx)) (fun e2 => hpv3 (e2 ▸ hx))
            (fun e2 => hqL2 (e2 ▸ hx)))
  | cons a L1x ih =>
    intro prevPtr ptr hs hnd
    rw [List.cons_append, listSeg_cons_iff] at hs
    obtain ⟨hptr, hpa, hrest⟩ := hs
    have hnd2 : (L1x ++ cptr :: q :: L2).Nodup := (List.nodup_cons.mp hnd).2
    have hanotin : a ∉ (L1x ++ cptr :: q :: L2) := (List.nodup_cons.mp hnd).1
    have hac : a ≠ cptr := fun e => hanotin
      (e ▸ List.mem_append_right _ (List.mem_cons_self _ _))
    have haq : a ≠ q := fun e => hanotin
      (e ▸ List.mem_append_right _ (List.mem_cons_of_mem _ (List.mem_cons_self _ _)))
    have hIH := ih (some a) ((s.clients a).cli_next) hrest hnd2
    rw [if_neg (List.cons_ne_nil a L1x), List.cons_append, listSeg_cons_iff]
    rcases hL1x : L1x with _ | ⟨b, L1y⟩
    · subst hL1x
      rw [List.nil_append, listSeg_cons_iff] at hrest
      obtain ⟨hna, hpc, -⟩ := hrest
      obtain ⟨-, -, hpvv, -, -, -, -⟩ :=
        delink_global_spec_mid s cptr q a hq hpc hac haq hqc
      rw [if_pos rfl] at hIH
      refine ⟨hptr, ?_, ?_⟩
      · rw [hpvv]; exact hpa
      · rw [hpvv]
        exact hIH
    · subst hL1x
      have hpcm := listSeg_prev_entry (b :: L1y) s.clients (some a)
        ((s.clients a).cli_next) cptr (q :: L2) hrest
      rcases hgl : (b :: L1y).getLast? with _ | m
      · simp [List.getLast?_eq_none_iff] at hgl
      · rw [hgl] at hpcm
        have hm_mem : m ∈ b :: L1y := by
          obtain ⟨hne, he⟩ := List.mem_getLast?_eq_getLast (l := b :: L1y) (x := m)
            (by rw [hgl]; rfl)
          rw [he]; exact List.getLast_mem hne
        have ham : a ≠ m := fun e => hanotin (e ▸ List.mem_append_left _ hm_mem)
        obtain ⟨hpv1, hpv2, hpv3⟩ := hpv m hpcm
        obtain ⟨-, -, -, -, hothers, -, -⟩ :=
          delink_global_spec_mid s cptr q m hq hpcm hpv1 hpv2 hqc
        have ha2 : (delink_global s cptr).clients a = s.clients a :=
          hothers a hac ham haq
        rw [if_neg (List.cons_ne_nil b L1y)] at hIH
        refine ⟨hptr, ?_, ?_⟩
        · rw [ha2]; exact hpa
        · rw [ha2]
          exact hIH

/-- Removing a mid-chain node from the global list (the delink part of
remove_client_from_list) preserves the chain well-formedness. -/
theorem delink_global_seg (s : ListState) (cptr q : Nat) (L1 L2 : List Nat)
    (hseg : listSeg s.clients none s.globalClientList (L1 ++ cptr :: q :: L2) = true)
    (hndfull : (L1 ++ cptr :: q :: L2).Nodup) :
    listSeg (delink_global s cptr).clients none
      (delink_global s cptr).globalClientList (L1 ++ q :: L2) = true := by
  have hq : (s.clients cptr).cli_next = some q :=
    listSeg_next_entry L1 s.clients none s.globalClientList cptr q L2 hseg
  have hnd := hndfull
  rw [List.nodup_append] at hnd
  obtain ⟨hndL1, hndR, hdisj⟩ := hnd
  obtain ⟨hcnot, hndq⟩ := List.nodup_cons.mp hndR
  obtain ⟨hqnot, -⟩ := List.nodup_cons.mp hndq
  have hqc : q ≠ cptr := fun e => hcnot (by rw [← e]; exact List.mem_cons_self _ _)
  have hcL2 : cptr ∉ L2 := fun hx => hcnot (List.mem_cons_of_mem _ hx)
  have hpv : ∀ pv, (s.clients cptr).cli_prev = some pv →
      pv ≠ cptr ∧ pv ≠ q ∧ pv ∉ L2 := by
    intro pv hp
    have hpcm := listSeg_prev_entry L1 s.clients none s.globalClientList cptr
      (q :: L2) hseg
    rcases hgl : L1.getLast? with _ | m
    · rw [hgl] at hpcm; rw [hp] at hpcm; exact absurd hpcm (by simp)
    · rw [hgl] at hpcm
      rw [hp] at hpcm
      have hpm : pv = m := by injection hpcm
      subst hpm
      have hm_mem : pv ∈ L1 := by
        obtain ⟨hne, he⟩ := List.mem_getLast?_eq_getLast (l := L1) (x := pv)
          (by rw [hgl]; rfl)
        rw [he]; exact List.getLast_mem hne
      have hnotR : pv ∉ cptr :: q :: L2 := fun hx => hdisj hm_mem hx
      refine ⟨fun e => hnotR (by rw [e]; exact List.mem_cons_self _ _),
        fun e => hnotR (by rw [e]; exact List.mem_cons_of_mem _ (List.mem_cons_self _ _)),
        fun hx => hnotR (List.mem_cons_of_mem _ (List.mem_cons_of_mem _ hx))⟩
  have haux := delink_seg_aux s cptr q L2 hq hqc hqnot hcL2 hpv L1 none
    s.globalClientList hseg hndfull
  rcases hpc : (s.clients cptr).cli_prev with _ | pv
  · have hL1 : L1 = [] := by
      rcases hgl : L1.getLast? with _ | m
      · exact List.getLast?_eq_none_iff.mp hgl
      · have hpcm := listSeg_prev_entry L1 s.clients none s.globalClientList cptr
          (q :: L2) hseg
        rw [hgl] at hpcm
        rw [hpc] at hpcm
        exact absurd hpcm (by simp)
    subst hL1
    obtain ⟨hgl2, -, -, -, -, -⟩ := delink_global_spec_head s cptr q hq hpc hqc
    rw [hgl2]
    rw [if_pos rfl] at haux
    exact haux
  · have hL1ne : L1 ≠ [] := by
      intro e
      subst e
      have hpcm := listSeg_prev_entry [] s.clients none s.globalClientList cptr
        (q :: L2) hseg
      rw [hpc] at hpcm
      exact absurd hpcm (by simp)
    obtain ⟨hpv1, hpv2, hpv3⟩ := hpv pv hpc
    obtain ⟨hgl2, -, -, -, -, -, -⟩ :=
      delink_global_spec_mid s cptr q pv hq hpc hpv1 hpv2 hqc
    rw [hgl2]
    rw [if_neg hL1ne] at haux
    exact haux

/-- Rewriting a false cli_user field is the identity. -/
theorem client_user_eta (x : Client) (h : x.cli_user = false) :
    { x with cli_user := false } = x := by
  cases x
  simp at h
  subst h
  rfl

/-- Rewriting an empty cli_serv field is the identity. -/
theorem client_serv_eta (x : Client) (h : x.cli_serv = none) :
    { x with cli_serv := none } = x := by
  cases x
  simp at h
  subst h
  rfl

theorem free_client_clients_ne (s : ListState) (c x : Nat) (hx : x ≠ c) :
    (free_client s (some c)).clients x = s.clients x := by
  rcases hcc : (s.clients c).cli_connect with _ | k
  · simp [free_client, hcc, hx]
  · cases hauth : (s.conns k).con_auth <;>
      simp [free_client, hcc, hauth, hx] <;>
      (try split_ifs) <;>
      simp [hx]

theorem free_client_clients_at (s : ListState) (c : Nat) :
    (free_client s (some c)).clients c =
      { s.clients c with cli_connect := none, cli_next := s.clientFreeList.head?, cli_magic := 0 } := by
  rcases hcc : (s.clients c).cli_connect with _ | k
  · simp [free_client, hcc]
  · cases hauth : (s.conns k).con_auth <;>
      simp [free_client, hcc, hauth] <;>
      (try split_ifs) <;>
      simp

theorem free_client_globalClientList (s : ListState) (c : Nat) :
    (free_client s (some c)).globalClientList = s.globalClientList := by
  rcases hcc : (s.clients c).cli_connect with _ | k
  · simp [free_client, hcc]
  · cases hauth : (s.conns k).con_auth <;>
      simp [free_client, hcc, hauth] <;>
      (try split_ifs) <;>
      simp

theorem free_client_clientFreeList (s : ListState) (c : Nat) :
    (free_client s (some c)).clientFreeList = c :: s.clientFreeList := by
  rcases hcc : (s.clients c).cli_connect with _ | k
  · simp [free_client, hcc]
  · cases hauth : (s.conns k).con_auth <;>
      simp [free_client, hcc, hauth] <;>
      (try split_ifs) <;>
      simp

theorem free_client_whowas (s : ListState) (c : Nat) :
    (free_client s (some c)).whowas = s.whowas := by
  rcases hcc : (s.clients c).cli_connect with _ | k
  · simp [free_client, hcc]
  · cases hauth : (s.conns k).con_auth <;>
      simp [free_client, hcc, hauth] <;>
      (try split_ifs) <;>
      simp

theorem remove_hist_clients (s : ListState) (cptr : Nat) :
    (remove_hist_step s cptr).clients = s.clients := by
  unfold remove_hist_step; split <;> rfl

theorem remove_hist_globalClientList (s : ListState) (cptr : Nat) :
    (remove_hist_step s cptr).globalClientList = s.globalClientList := by
  unfold remove_hist_step; split <;> rfl

theorem remove_hist_clientFreeList (s : ListState) (cptr : Nat) :
    (remove_hist_step s cptr).clientFreeList = s.clientFreeList := by
  unfold remove_hist_step; split <;> rfl

theorem remove_hist_whowas (s : ListState) (cptr : Nat) :
    (remove_hist_step s cptr).whowas =
      (if IsUser s cptr && (s.clients cptr).cli_user then s.whowas ++ [cptr]
       else s.whowas) := by
  unfold remove_hist_step; split <;> simp_all

theorem remove_user_clients_ne (s : ListState) (cptr x : Nat) (hx : x ≠ cptr) :
    (remove_user_step s cptr).clients x = s.clients x := by
  unfold remove_user_step; split <;> simp [hx]

theorem remove_user_clients_at (s : ListState) (cptr : Nat) :
    (remove_user_step s cptr).clients cptr =
      { s.clients cptr with cli_user := false } := by
  unfold remove_user_step
  split
  · simp
  · rename_i hcond
    simp only [Bool.not_eq_true] at hcond
    exact (client_user_eta _ hcond).symm

theorem remove_user_globalClientList (s : ListState) (cptr : Nat) :
    (remove_user_step s cptr).globalClientList = s.globalClientList := by
  unfold remove_user_step; split <;> rfl

theorem remove_user_clientFreeList (s : ListState) (cptr : Nat) :
    (remove_user_step s cptr).clientFreeList = s.clientFreeList := by
  unfold remove_user_step; split <;> rfl

theorem remove_user_whowas (s : ListState) (cptr : Nat) :
    (remove_user_step s cptr).whowas = s.whowas := by
  unfold remove_user_step; split <;> rfl

theorem remove_serv_clients_ne (s : ListState) (cptr x : Nat) (hx : x ≠ cptr) :
    (remove_serv_step s cptr).clients x = s.clients x := by
  unfold remove_serv_step; split <;> (try split_ifs) <;> simp [hx]

theorem remove_serv_clients_at (s : ListState) (cptr : Nat) :
    (remove_serv_step s cptr).clients cptr =
      { s.clients cptr with cli_serv := none } := by
  unfold remove_serv_step
  split
  · rename_i sv hcond
    split_ifs <;> simp
  · rename_i hcond
    exact (client_serv_eta _ hcond).symm

theorem remove_serv_globalClientList (s : ListState) (cptr : Nat) :
    (remove_serv_step s cptr).globalClientList = s.globalClientList := by
  unfold remove_serv_step; split <;> (try split_ifs) <;> rfl

theorem remove_serv_clientFreeList (s : ListState) (cptr : Nat) :
    (remove_serv_step s cptr).clientFreeList = s.clientFreeList := by
  unfold remove_serv_step; split <;> (try split_ifs) <;> rfl

theorem remove_serv_whowas (s : ListState) (cptr : Nat) :
    (remove_serv_step s cptr).whowas = s.whowas := by
  unfold remove_serv_step; split <;> (try split_ifs) <;> rfl

theorem remove_clients_ne (s : ListState) (cptr x : Nat) (hx : x ≠ cptr) :
    (remove_client_from_list s cptr).clients x = (delink_global s cptr).clients x := by
  unfold remove_client_from_list
  rw [free_client_clients_ne _ _ _ hx, remove_serv_clients_ne _ _ _ hx,
    remove_user_clients_ne _ _ _ hx, congrFun (remove_hist_clients _ _) x]

theorem remove_globalClientList (s : ListState) (cptr : Nat) :
    (remove_client_from_list s cptr).globalClientList
      = (delink_global s cptr).globalClientList := by
  unfold remove_client_from_list
  rw [free_client_globalClientList, remove_serv_globalClientList,
    remove_user_globalClientList, remove_hist_globalClientList]

theorem remove_clientFreeList (s : ListState) (cptr : Nat) :
    (remove_client_from_list s cptr).clientFreeList
      = cptr :: (delink_global s cptr).clientFreeList := by
  unfold remove_client_from_list
  rw [free_client_clientFreeList, remove_serv_clientFreeList,
    remove_user_clientFreeList, remove_hist_clientFreeList]

theorem remove_clients_at (s : ListState) (cptr : Nat) :
    (remove_client_from_list s cptr).clients cptr =
      { (delink_global s cptr).clients cptr with cli_user := false, cli_serv := none, cli_connect := none, cli_next := (delink_global s cptr).clientFreeList.head?, cli_magic := 0 } := by
  unfold remove_client_from_list
  rw [free_client_clients_at, remove_serv_clientFreeList, remove_user_clientFreeList,
    remove_hist_clientFreeList, remove_serv_clients_at, remove_user_clients_at,
    congrFun (remove_hist_clients _ _) cptr]

theorem remove_whowas (s : ListState) (cptr : Nat) :
    (remove_client_from_list s cptr).whowas =
      (if IsUser (delink_global s cptr) cptr
          && ((delink_global s cptr).clients cptr).cli_user then
        (delink_global s cptr).whowas ++ [cptr]
      else (delink_global s cptr).whowas) := by
  unfold remove_client_from_list
  rw [free_client_whowas, remove_serv_whowas, remove_user_whowas, remove_hist_whowas]

/-- Pointwise effect of add_client_to_list on a non-empty list. -/
theorem add_client_spec (s : ListState) (cptr g : Nat)
    (hgl : s.globalClientList = some g) (hgc : g ≠ cptr) :
    (add_client_to_list s cptr).globalClientList = some cptr ∧
    (add_client_to_list s cptr).clients cptr =
      { s.clients cptr with cli_next := some g, cli_prev := none } ∧
    (add_client_to_list s cptr).clients g =
      { s.clients g with cli_prev := some cptr } ∧
    (∀ x, x ≠ cptr → x ≠ g → (add_client_to_list s cptr).clients x = s.clients x) := by
  refine ⟨?_, ?_, ?_, ?_⟩
  · simp [add_client_to_list, hgl]
  · simp [add_client_to_list, hgl, hgc, Ne.symm hgc]
  · simp [add_client_to_list, hgl, hgc, Ne.symm hgc]
  · intro x hxc hxg
    simp [add_client_to_list, hgl, hxc, hxg]

/-- Pointwise effect of add_client_to_list on an empty list. -/
theorem add_client_spec_none (s : ListState) (cptr : Nat)
    (hgl : s.globalClientList = none) :
    (add_client_to_list s cptr).globalClientList = some cptr ∧
    (add_client_to_list s cptr).clients cptr =
      { s.clients cptr with cli_next := none, cli_prev := none } ∧
    (∀ x, x ≠ cptr → (add_client_to_list s cptr).clients x = s.clients x) := by
  refine ⟨?_, ?_, ?_⟩
  · simp [add_client_to_list, hgl]
  · simp [add_client_to_list, hgl]
  · intro x hxc
    simp [add_client_to_list, hgl, hxc]

/-- Claim C8 (corrected): the global-client-list well-formedness (head's
prev is NULL, every node's successor points back, the chain is NUL
terminated) is preserved by add_client_to_list for every client not
already on the list, and by remove_client_from_list for every client
that either sits on the list with a non-NULL next pointer (i.e. is not
the final element — in the program &me is always last and never removed)
or is fully detached.  It is NOT preserved when the list's final element
is removed (see the counterexample). -/
theorem C8_global_list_wf_preserved (s : ListState) (cptr : Nat) (L : List Nat)
    (hseg : listSeg s.clients none s.globalClientList L = true)
    (hnd : L.Nodup) :
    (cptr ∉ L →
       listSeg (add_client_to_list s cptr).clients none
         (add_client_to_list s cptr).globalClientList (cptr :: L) = true) ∧
    (∀ L1 q L2, L = L1 ++ cptr :: q :: L2 →
       listSeg (remove_client_from_list s cptr).clients none
         (remove_client_from_list s cptr).globalClientList (L1 ++ q :: L2) = true) ∧
    (cptr ∉ L → (s.clients cptr).cli_next = none →
       listSeg (remove_client_from_list s cptr).clients none
         (remove_client_from_list s cptr).globalClientList L = true) := by
  refine ⟨?_, ?_, ?_⟩
  · intro hnot
    rcases hgl : s.globalClientList with _ | g
    · have hL : L = [] := by
        cases L with
        | nil => rfl
        | cons a t =>
          rw [listSeg_cons_iff] at hseg
          obtain ⟨h1, -, -⟩ := hseg
          rw [hgl] at h1
          exact absurd h1 (by simp)
      subst hL
      obtain ⟨h1, h2, -⟩ := add_client_spec_none s cptr hgl
      rw [h1, listSeg_cons_iff, h2]
      simp
    · cases L with
      | nil =>
        rw [listSeg_nil, hgl] at hseg
        exact absurd hseg (by simp)
      | cons a rest =>
        rw [listSeg_cons_iff] at hseg
        obtain ⟨h1, hpg, hrest⟩ := hseg
        rw [hgl] at h1
        have hga : g = a := Option.some.inj h1
        subst hga
        have hgc : g ≠ cptr := by
          intro e
          exact hnot (e ▸ List.mem_cons_self _ _)
        have hgrest : g ∉ rest := (List.nodup_cons.mp hnd).1
        obtain ⟨h1, h2, h3, h4⟩ := add_client_spec s cptr g hgl hgc
        rw [h1, listSeg_cons_iff, h2]
        refine ⟨rfl, rfl, ?_⟩
        simp only []
        rw [listSeg_cons_iff, h3]
        refine ⟨rfl, rfl, ?_⟩
        simp only []
        refine listSeg_frame rest s.clients _ _ _ hrest ?_
        intro x hx
        exact h4 x (fun e => hnot (e ▸ List.mem_cons_of_mem _ hx))
          (fun e => hgrest (e ▸ hx))
  · intro L1 q L2 hLeq
    subst hLeq
    have hmain := delink_global_seg s cptr q L1 L2 hseg hnd
    have hcnot : cptr ∉ L1 ++ q :: L2 := by
      rw [List.nodup_append] at hnd
      obtain ⟨-, hndR, hdisj⟩ := hnd
      obtain ⟨hcnotR, -⟩ := List.nodup_cons.mp hndR
      intro hx
      rcases List.mem_append.mp hx with hx1 | hx2
      · exact hdisj hx1 (List.mem_cons_self _ _)
      · exact hcnotR hx2
    rw [remove_globalClientList]
    refine listSeg_frame _ _ _ _ _ hmain ?_
    intro x hx
    exact remove_clients_ne s cptr x (fun e => hcnot (e ▸ hx))
  · intro hnot hnext
    obtain ⟨hgl2, -, hothers, -, -⟩ := delink_global_spec_detached s cptr hnext
    rw [remove_globalClientList, hgl2]
    refine listSeg_frame L s.clients _ _ _ hseg ?_
    intro x hx
    have hxc : x ≠ cptr := fun e => hnot (e ▸ hx)
    rw [remove_clients_ne s cptr x hxc, hothers x hxc]

/-- A two-client global list: head 0, then 1 (the final element). -/
def pool8 : ListState :=
  { emptyPool with
      clients := upd (upd emptyPool.clients 0 { Client.zeroed with cli_next := some 1 })
        1 { Client.zeroed with cli_prev := some 0 }
      globalClientList := some 0 }

/-- Claim C8 counterexample: removing the final element of a well-formed
two-node list leaves its predecessor pointing at it while its own prev
has been cleared — no node list can certify the result well-formed. -/
theorem C8_cex_remove_last_breaks_wf :
    (listSeg pool8.clients none pool8.globalClientList [0, 1] = true ∧ [0, 1].Nodup) ∧
    (remove_client_from_list pool8 1).globalClientList = some 0 ∧
    ((remove_client_from_list pool8 1).clients 0).cli_next = some 1 ∧
    ((remove_client_from_list pool8 1).clients 1).cli_prev = none ∧
    (∀ L : List Nat,
       listSeg (remove_client_from_list pool8 1).clients none
         (remove_client_from_list pool8 1).globalClientList L = false) := by
  refine ⟨⟨by decide, by decide⟩, by decide, by decide, by decide, ?_⟩
  intro L
  rw [Bool.eq_false_iff]
  intro hcontra
  rcases L with _ | ⟨a, t⟩
  · exact absurd hcontra (by decide)
  · rw [listSeg_cons_iff] at hcontra
    obtain ⟨h1, -, h3⟩ := hcontra
    have hhead : (remove_client_from_list pool8 1).globalClientList = some 0 := by
      decide
    rw [hhead] at h1
    have ha : (0 : Nat) = a := Option.some.inj h1
    subst ha
    have hnext : ((remove_client_from_list pool8 1).clients 0).cli_next = some 1 := by
      decide
    rw [hnext] at h3
    rcases t with _ | ⟨b, t2⟩
    · rw [listSeg_nil] at h3
      exact absurd h3 (by decide)
    · rw [listSeg_cons_iff] at h3
      obtain ⟨h4, h5, -⟩ := h3
      have hb : (1 : Nat) = b := Option.some.inj h4
      subst hb
      have hprev : ((remove_client_from_list pool8 1).clients 1).cli_prev = none := by
        decide
      rw [hprev] at h5
      exact absurd h5 (by simp)

/-- Witness for C8 at the two-node list, removing the head (which has a
successor) and adding a fresh client. -/
theorem C8_witness :
    (2 ∉ [0, 1] →
       listSeg (add_client_to_list pool8 2).clients none
         (add_client_to_list pool8 2).globalClientList (2 :: [0, 1]) = true) ∧
    (∀ L1 q L2, [0, 1] = L1 ++ 2 :: q :: L2 →
       listSeg (remove_client_from_list pool8 2).clients none
         (remove_client_from_list pool8 2).globalClientList (L1 ++ q :: L2) = true) ∧
    (2 ∉ [0, 1] → (pool8.clients 2).cli_next = none →
       listSeg (remove_client_from_list pool8 2).clients none
         (remove_client_from_list pool8 2).globalClientList [0, 1] = true) :=
  C8_global_list_wf_preserved pool8 2 [0, 1] (by decide) (by decide)

theorem delink_clientFreeList (s : ListState) (cptr : Nat) :
    (delink_global s cptr).clientFreeList = s.clientFreeList := by
  rcases h1 : (s.clients cptr).cli_next with _ | nx
  · simp [delink_global, h1]
  · rcases h2 : (s.clients cptr).cli_prev with _ | pv <;> simp [delink_global, h1, h2]

theorem delink_whowas (s : ListState) (cptr : Nat) :
    (delink_global s cptr).whowas = s.whowas := by
  rcases h1 : (s.clients cptr).cli_next with _ | nx
  · simp [delink_global, h1]
  · rcases h2 : (s.clients cptr).cli_prev with _ | pv <;> simp [delink_global, h1, h2]

/-- The delink always clears cptr's own pointers (mid-chain case). -/
theorem delink_clients_at_clears (s : ListState) (cptr q : Nat)
    (hq : (s.clients cptr).cli_next = some q) (hqc : q ≠ cptr)
    (hpvc : ∀ pv, (s.clients cptr).cli_prev = some pv → pv ≠ cptr) :
    (delink_global s cptr).clients cptr =
      { s.clients cptr with cli_next := none, cli_prev := none } := by
  rcases hp : (s.clients cptr).cli_prev with _ | pv
  · exact (delink_global_spec_head s cptr q hq hp hqc).2.1
  · have hpc := hpvc pv hp
    simp [delink_global, hq, hp, hpc, Ne.symm hpc, hqc, Ne.symm hqc]

/-- Claim C6 (corrected): unregister postcondition of
remove_client_from_list for a client on the (well-formed, NoDup) global
list that is not its final element: the remaining chain is the old chain
without the client and the client no longer appears on it; the client's
prev is NULL but its next is NOT NULL in general — it links the client
free list (it equals the old free-list head); the client record is
prepended to the client free list; the whowas history gains the client
exactly when its status is User and it has a user record; the User and
Server sub-records are freed (cli_user cleared, cli_serv cleared). -/
theorem C6_unregister_postcondition (s : ListState) (cptr q : Nat) (L1 L2 : List Nat)
    (hseg : listSeg s.clients none s.globalClientList (L1 ++ cptr :: q :: L2) = true)
    (hnd : (L1 ++ cptr :: q :: L2).Nodup) :
    listSeg (remove_client_from_list s cptr).clients none
      (remove_client_from_list s cptr).globalClientList (L1 ++ q :: L2) = true ∧
    cptr ∉ L1 ++ q :: L2 ∧
    ((remove_client_from_list s cptr).clients cptr).cli_prev = none ∧
    ((remove_client_from_list s cptr).clients cptr).cli_next
      = s.clientFreeList.head? ∧
    (remove_client_from_list s cptr).clientFreeList = cptr :: s.clientFreeList ∧
    (remove_client_from_list s cptr).whowas =
      (if IsUser s cptr && (s.clients cptr).cli_user then s.whowas ++ [cptr]
       else s.whowas) ∧
    ((remove_client_from_list s cptr).clients cptr).cli_user = false ∧
    ((remove_client_from_list s cptr).clients cptr).cli_serv = none := by
  have hq : (s.clients cptr).cli_next = some q :=
    listSeg_next_entry L1 s.clients none s.globalClientList cptr q L2 hseg
  have hnd2 := hnd
  rw [List.nodup_append] at hnd2
  obtain ⟨-, hndR, hdisj⟩ := hnd2
  obtain ⟨hcnotR, hndq⟩ := List.nodup_cons.mp hndR
  have hqc : q ≠ cptr := fun e => hcnotR (by rw [← e]; exact List.mem_cons_self _ _)
  have hcnot : cptr ∉ L1 ++ q :: L2 := by
    intro hx
    rcases List.mem_append.mp hx with hx1 | hx2
    · exact hdisj hx1 (List.mem_cons_self _ _)
    · exact hcnotR hx2
  have hpvc : ∀ pv, (s.clients cptr).cli_prev = some pv → pv ≠ cptr := by
    intro pv hp
    have hpcm := listSeg_prev_entry L1 s.clients none s.globalClientList cptr
      (q :: L2) hseg
    rcases hgl : L1.getLast? with _ | m
    · rw [hgl] at hpcm; rw [hp] at hpcm; exact absurd hpcm (by simp)
    · rw [hgl] at hpcm
      rw [hp] at hpcm
      have hpm : pv = m := by injection hpcm
      subst hpm
      have hm_mem : pv ∈ L1 := by
        obtain ⟨hne, he⟩ := List.mem_getLast?_eq_getLast (l := L1) (x := pv)
          (by rw [hgl]; rfl)
        rw [he]; exact List.getLast_mem hne
      exact fun e => hdisj hm_mem (by rw [e]; exact List.mem_cons_self _ _)
  have hclear := delink_clients_at_clears s cptr q hq hqc hpvc
  have hchain : listSeg (remove_client_from_list s cptr).clients none
      (remove_client_from_list s cptr).globalClientList (L1 ++ q :: L2) = true := by
    have hmain := delink_global_seg s cptr q L1 L2 hseg hnd
    rw [remove_globalClientList]
    refine listSeg_frame _ _ _ _ _ hmain ?_
    intro x hx
    exact remove_clients_ne s cptr x (fun e => hcnot (e ▸ hx))
  have hat := remove_clients_at s cptr
  rw [hclear, delink_clientFreeList] at hat
  refine ⟨hchain, hcnot, ?_, ?_, ?_, ?_, ?_, ?_⟩
  · rw [hat]
  · rw [hat]
  · rw [remove_clientFreeList, delink_clientFreeList]
  · rw [remove_whowas]
    have h1 : IsUser (delink_global s cptr) cptr = IsUser s cptr := by
      simp [IsUser, hclear]
    have h2 : ((delink_global s cptr).clients cptr).cli_user
        = (s.clients cptr).cli_user := by rw [hclear]
    rw [h1, h2, delink_whowas]
  · rw [hat]
  · rw [hat]

/-- A two-client list (user client 0, then 1) with a non-empty client
free list holding cell 5. -/
def pool6 : ListState :=
  { emptyPool with
      clients := upd (upd emptyPool.clients 0 { Client.zeroed with cli_status := STAT_USER, cli_user := true, cli_next := some 1 }) 1 { Client.zeroed with cli_prev := some 0 }
      globalClientList := some 0
      clientFreeList := [5] }

/-- Claim C6 counterexample: after remove_client_from_list returns, the
removed client's next pointer is NOT null whenever the client free list
was non-empty — dealloc_client links the record into the free list
through cli_next (here it points at free cell 5). -/
theorem C6_cex_next_not_null_after :
    (listSeg pool6.clients none pool6.globalClientList [0, 1] = true ∧
      [0, 1].Nodup) ∧
    ((remove_client_from_list pool6 0).clients 0).cli_next = some 5 ∧
    ((remove_client_from_list pool6 0).clients 0).cli_next ≠ none := by
  refine ⟨⟨by decide, by decide⟩, by decide, by decide⟩

/-- Witness for C6 at the concrete two-client list with user client 0. -/
theorem C6_witness :
    listSeg (remove_client_from_list pool6 0).clients none
      (remove_client_from_list pool6 0).globalClientList [1] = true ∧
    0 ∉ [1] ∧
    ((remove_client_from_list pool6 0).clients 0).cli_prev = none ∧
    ((remove_client_from_list pool6 0).clients 0).cli_next
      = pool6.clientFreeList.head? ∧
    (remove_client_from_list pool6 0).clientFreeList = 0 :: pool6.clientFreeList ∧
    (remove_client_from_list pool6 0).whowas =
      (if IsUser pool6 0 && (pool6.clients 0).cli_user then pool6.whowas ++ [0]
       else pool6.whowas) ∧
    ((remove_client_from_list pool6 0).clients 0).cli_user = false ∧
    ((remove_client_from_list pool6 0).clients 0).cli_serv = none :=
  C6_unregister_postcondition pool6 0 1 [] [] (by decide) (by decide)
